import Mathlib

/-!
Verification development for the dragen CNV / coverage metric modules
(src/multiqc/modules/dragen/cnv_metrics.py and coverage_metrics.py).

The Python code is shallowly embedded: regular expressions are embedded as
token programs over a small backtracking matcher that mirrors the greedy,
leftmost semantics of the `re` module for the exact patterns the modules
compile; dictionaries become insertion ordered association lists; the int
and float builtin conversions become executable partial parsers over
strings; the per file and per batch mutable state becomes explicit state
passing.
-/

namespace DragenSpec

/-! ## Python character helpers -/

/-- Whitespace as matched by the `\s` class and by `str.strip()` for the
ASCII range: space, tab, linefeed, carriage return, vertical tab, formfeed. -/
def pyIsSpace (c : Char) : Bool :=
  c = ' ' || c = '\t' || c = '\n' || c = '\r' || c = '\x0b' || c = '\x0c'

/-- ASCII lowercasing, as applied by `str.lower()` and by `re.IGNORECASE`
comparisons on the ASCII letters used in these modules. -/
def pyToLower (c : Char) : Char :=
  if 'A' ≤ c ∧ c ≤ 'Z' then Char.ofNat (c.toNat + 32) else c

/-- Character comparison, optionally case insensitive. -/
def chEq (ci : Bool) (a b : Char) : Bool :=
  if ci then pyToLower a = pyToLower b else a = b

/-! ## A tiny backtracking matcher for the token programs obtained from the
regular expressions compiled by the two modules.  Every pattern in the source
is a plain sequence of literals, character class repeats (greedy `+` or `*`),
a single optional comma (`,?`) and literal alternations, so this token
language covers them exactly, including the greedy backtracking order of the
`re` engine. -/

inductive Tok where
  /-- a literal run of characters -/
  | lit (l : List Char)
  /-- a capturing alternation of literals, tried left to right -/
  | altG (ls : List (List Char))
  /-- a capturing greedy `[class]+` -/
  | grpPlus (cls : Char → Bool)
  /-- a capturing greedy `[class]*` -/
  | grpStar (cls : Char → Bool)
  /-- a non capturing greedy `[class]+` -/
  | clsPlus (cls : Char → Bool)
  /-- a non capturing greedy `[class]*` -/
  | clsStar (cls : Char → Bool)
  /-- a non capturing single class character -/
  | cls1 (cls : Char → Bool)
  /-- a greedy optional single character, `c?` -/
  | optCh (c : Char)

/-- First success over a candidate list: the backtracking search order. -/
def firstSome (f : α → Option β) : List α → Option β
  | [] => none
  | a :: rest =>
    match f a with
    | some b => some b
    | none => firstSome f rest

/-- Match a literal at the head of the input, returning the rest. -/
def matchLit (ci : Bool) : List Char → List Char → Option (List Char)
  | [], s => some s
  | _ :: _, [] => none
  | p :: ps, c :: cs => if chEq ci p c then matchLit ci ps cs else none

/-- Candidate lengths for a greedy `[class]+`, longest first. -/
def plusCands (cls : Char → Bool) (s : List Char) : List Nat :=
  (List.range' 1 (s.takeWhile cls).length).reverse

/-- Candidate lengths for a greedy `[class]*`, longest first. -/
def starCands (cls : Char → Bool) (s : List Char) : List Nat :=
  (List.range ((s.takeWhile cls).length + 1)).reverse

/-- Run a token program against the input.  `ci` switches `re.IGNORECASE`
semantics on literals; `anch` demands the match use the whole input, which
models a trailing `$` (unanchored patterns simply leave a remainder).
Returns the list of captured groups on success. -/
def matchToks (ci anch : Bool) : List Tok → List Char → Option (List (List Char))
  | [], s => if anch ∧ s ≠ [] then none else some []
  | Tok.lit l :: ts, s =>
    match matchLit ci l s with
    | some rest => matchToks ci anch ts rest
    | none => none
  | Tok.altG ls :: ts, s =>
    firstSome (fun l =>
      match matchLit ci l s with
      | some rest => (matchToks ci anch ts rest).map (fun gs => s.take l.length :: gs)
      | none => none) ls
  | Tok.grpPlus cls :: ts, s =>
    firstSome (fun n => (matchToks ci anch ts (s.drop n)).map (fun gs => s.take n :: gs))
      (plusCands cls s)
  | Tok.grpStar cls :: ts, s =>
    firstSome (fun n => (matchToks ci anch ts (s.drop n)).map (fun gs => s.take n :: gs))
      (starCands cls s)
  | Tok.clsPlus cls :: ts, s =>
    firstSome (fun n => matchToks ci anch ts (s.drop n)) (plusCands cls s)
  | Tok.clsStar cls :: ts, s =>
    firstSome (fun n => matchToks ci anch ts (s.drop n)) (starCands cls s)
  | Tok.cls1 cls :: ts, s =>
    match s with
    | [] => none
    | c :: cs => if cls c then matchToks ci anch ts cs else none
  | Tok.optCh c :: ts, s =>
    match s with
    | [] => matchToks ci anch ts s
    | c2 :: cs =>
      if chEq ci c c2 then
        match matchToks ci anch ts cs with
        | some gs => some gs
        | none => matchToks ci anch ts s
      else matchToks ci anch ts s

/-- `re.search` for a pattern without a leading anchor: try every start
position from the left, as the `re` engine does. -/
def searchToks (ci anch : Bool) (ts : List Tok) : List Char → Option (List (List Char))
  | [] => matchToks ci anch ts []
  | c :: cs =>
    match matchToks ci anch ts (c :: cs) with
    | some gs => some gs
    | none => searchToks ci anch ts cs

/-! ## Values and the int / float builtin conversions -/

/-- The result of a successful `float()` conversion: a finite value kept
exactly as the parsed decimal `mant · 10 ^ exp` (the modules do no
arithmetic on it and never compare floats obtained from different texts),
an infinity, or a nan. -/
inductive PyFloat where
  | finite (mant : ℤ) (exp : ℤ)
  | inf (neg : Bool)
  | nan
deriving DecidableEq, Repr

/-- The rational value of a finite `PyFloat`; only documentation, the
parsers never compute with it. -/
def PyFloat.val : PyFloat → Option ℚ
  | PyFloat.finite m e => some ((m : ℚ) * (10 : ℚ) ^ e)
  | _ => none

/-- A parsed metric value: `int`, `float`, or the original string when
neither conversion succeeded. -/
inductive MetricValue where
  | int (z : ℤ)
  | float (f : PyFloat)
  | str (s : String)
deriving DecidableEq, Repr

/-- Python truthiness for the values that can reach an `if value2:` test
(a finite float is zero exactly when its mantissa is). -/
def pyTruthy : MetricValue → Bool
  | MetricValue.int z => z ≠ 0
  | MetricValue.float (PyFloat.finite m _) => m ≠ 0
  | MetricValue.float _ => true
  | MetricValue.str s => s ≠ ""

def isAsciiDigit (c : Char) : Bool := '0' ≤ c ∧ c ≤ '9'

def digitVal (c : Char) : ℕ := c.toNat - 48

/-- Parse a digit run in which single underscores may separate digits, the
grammar `int()` and `float()` accept between digits.  `acc`/`cnt` carry the
value and the number of digits read so far; the head of the remaining input
has already been checked to be a digit by the caller. -/
def pyDigitsAux (acc cnt : ℕ) : List Char → Option (ℕ × ℕ)
  | [] => some (acc, cnt)
  | '_' :: c :: rest =>
    if isAsciiDigit c then pyDigitsAux (acc * 10 + digitVal c) (cnt + 1) rest else none
  | ['_'] => none
  | c :: rest =>
    if isAsciiDigit c then pyDigitsAux (acc * 10 + digitVal c) (cnt + 1) rest else none

/-- Parse a nonempty underscore separated digit run, returning its value and
the count of digits. -/
def pyDigits : List Char → Option (ℕ × ℕ)
  | [] => none
  | c :: rest => if isAsciiDigit c then pyDigitsAux (digitVal c) 1 rest else none

/-- Split off an optional sign; returns `true` for a minus. -/
def pySign : List Char → Bool × List Char
  | '+' :: rest => (false, rest)
  | '-' :: rest => (true, rest)
  | s => (false, s)

/-- `str.strip()` composed on a character list. -/
def pyStripList (l : List Char) : List Char :=
  ((l.dropWhile pyIsSpace).reverse.dropWhile pyIsSpace).reverse

/-- The builtin `int(s)` on a decimal string: optional surrounding
whitespace, optional sign, then digits with optional single underscores
between them.  Returns `none` where Python raises `ValueError`. -/
def pyInt (s : String) : Option ℤ :=
  let l := pyStripList s.data
  let (neg, body) := pySign l
  match pyDigits body with
  | some (v, _) => some (if neg then -(v : ℤ) else (v : ℤ))
  | none => none

/-- Case insensitive comparison with a literal, for `float()` keywords. -/
def eqCI (l : List Char) (kw : List Char) : Bool :=
  l.length = kw.length ∧ (l.zip kw).all (fun p => pyToLower p.1 = pyToLower p.2)

/-- Parse the mantissa of a float body: `digits [. [digits]] | . digits`,
returning its exact decimal value as a scaled integer `(mant, exp)`. -/
def pyMantissa (l : List Char) : Option (ℤ × ℤ) :=
  let ipart := l.takeWhile (fun c => c ≠ '.')
  let rest := l.drop ipart.length
  match rest with
  | [] =>
    match pyDigits ipart with
    | some (v, _) => some ((v : ℤ), 0)
    | none => none
  | _ :: fpart =>
    let ipRes : Option (ℕ × ℕ) := if ipart = [] then some (0, 0) else pyDigits ipart
    let fpRes : Option (ℕ × ℕ) := if fpart = [] then some (0, 0) else pyDigits fpart
    match ipRes, fpRes with
    | some (iv, icnt), some (fv, fcnt) =>
      if icnt + fcnt = 0 then none
      else some (((iv * 10 ^ fcnt + fv : ℕ) : ℤ), -(fcnt : ℤ))
    | _, _ => none

/-- The builtin `float(s)` on a string: optional surrounding whitespace and
sign; `inf`, `infinity` or `nan` (case insensitive); or a decimal mantissa
with an optional exponent. -/
def pyFloat (s : String) : Option PyFloat :=
  let l := pyStripList s.data
  let (neg, body) := pySign l
  if eqCI body "inf".data ∨ eqCI body "infinity".data then some (PyFloat.inf neg)
  else if eqCI body "nan".data then some PyFloat.nan
  else
    let mant := body.takeWhile (fun c => c ≠ 'e' ∧ c ≠ 'E')
    let erest := body.drop mant.length
    match pyMantissa mant with
    | none => none
    | some me =>
      let m := if neg then -me.1 else me.1
      match erest with
      | [] => some (PyFloat.finite m me.2)
      | _ :: etail =>
        let (eneg, ebody) := pySign etail
        match pyDigits ebody with
        | some (ev, _) =>
          some (PyFloat.finite m (me.2 + (if eneg then -(ev : ℤ) else (ev : ℤ))))
        | none => none

/-! ## Insertion ordered dictionaries -/

/-- `d[k] = v` on a Python dict: replace in place when the key exists,
append otherwise. -/
def upsertKV [DecidableEq κ] (k : κ) (v : α) : List (κ × α) → List (κ × α)
  | [] => [(k, v)]
  | (k2, v2) :: rest => if k2 = k then (k2, v) :: rest else (k2, v2) :: upsertKV k v rest

/-- `d.get(k)` on a Python dict. -/
def alookup [DecidableEq κ] (k : κ) : List (κ × α) → Option α
  | [] => none
  | (k2, v) :: rest => if k2 = k then some v else alookup k rest

/-- `k in d` on a Python dict. -/
def hasKey [DecidableEq κ] (k : κ) (l : List (κ × α)) : Bool :=
  (alookup k l).isSome

/-- `d[k].append(v)` on a `defaultdict(list)`. -/
def appendAt [DecidableEq κ] (k : κ) (v : β) : List (κ × List β) → List (κ × List β)
  | [] => [(k, [v])]
  | (k2, vs) :: rest => if k2 = k then (k2, vs ++ [v]) :: rest else (k2, vs) :: appendAt k v rest

/-! ## The CNV metrics module (cnv_metrics.py) -/

/-- Worker for `collapseWs`: `inRun` records whether the previous character
belonged to a whitespace run already replaced by one space. -/
def collapseAux (inRun : Bool) : List Char → List Char
  | [] => []
  | c :: cs =>
    if pyIsSpace c then
      if inRun then collapseAux true cs else ' ' :: collapseAux true cs
    else c :: collapseAux false cs

/-- `re.sub("\s+", " ", metric)`: replace every maximal whitespace run by a
single space. -/
def collapseWs (l : List Char) : List Char :=
  collapseAux false l

/-- `make_metric_id`: collapse whitespace runs, strip, lowercase. -/
def make_metric_id (metric : String) : String :=
  String.mk ((pyStripList (collapseWs metric.data)).map pyToLower)

def NAMESPACE : String := "DRAGEN CNV"

/-- `V2`, the in band marker appended to a metric id carrying a second
value. -/
def V2 : String := "(second value)"

def SEX_GENOTYPER_SECTION : String := "SEX GENOTYPER"

def CNV_SUMMARY_SECTION : String := "CNV SUMMARY"

/-- `RESERVED_START`, the ordering offset reserved for panel samples. -/
def RESERVED_START : ℕ := 100

/-- `PREFIX` from the module (title building). -/
def PREFIX_M : String := "M"

/-- `DESCR_UNIT` from the module. -/
def DESCR_UNIT : String := "millions"

/-- Values of the external multiqc configuration used only inside titles and
descriptions of catalog entries; their concrete values never influence any
claim. -/
def baseCountPfx : String := "Mb"

/-- External multiqc configuration, as `baseCountPfx`. -/
def baseCountDesc : String := "millions"

/-- A header configuration.  The scalar fields of `SINGLE_HEADER` plus the
`EXTRA_HEADER` extensions are carried; `none` models a key that is absent
from the Python dict.  The `bgcols` / `cond_formatting_rules` /
`cond_formatting_colours` dicts and the `modify` callable are presentation
payloads no claim mentions and are not carried. -/
structure HeaderConfig where
  nspace : Option String := none
  title : Option String := none
  description : Option String := none
  maxv : Option ℚ := none
  minv : Option ℚ := none
  ceiling : Option ℚ := none
  floor : Option ℚ := none
  minRange : Option ℚ := none
  scale : Option String := none
  colour : Option String := none
  sfx : Option String := none
  fmt : Option String := none
  shared_key : Option String := none
  hidden : Option Bool := none
  hidden_own : Option Bool := none
  exclude : Option Bool := none
  exclude_own : Option Bool := none
  order_priority : Option ℚ := none
deriving DecidableEq, Repr

/-- `SINGLE_HEADER` with its `None` entries filtered out, the starting
configuration of every header (`make_header` and `make_panel_headers`). -/
def SINGLE_HEADER_BASE : HeaderConfig where
  nspace := some NAMESPACE
  minv := some 0
  scale := some "GnBu"
  colour := some "255, 150, 30"
  fmt := some "\x7b:,.1f\x7d"
  hidden := some true
  hidden_own := some false
  exclude := some true

/-- `configs.update(METRICS[section][metric])`: fields present in the patch
replace those of the base. -/
def overlay (c p : HeaderConfig) : HeaderConfig where
  nspace := p.nspace.orElse fun _ => c.nspace
  title := p.title.orElse fun _ => c.title
  description := p.description.orElse fun _ => c.description
  maxv := p.maxv.orElse fun _ => c.maxv
  minv := p.minv.orElse fun _ => c.minv
  ceiling := p.ceiling.orElse fun _ => c.ceiling
  floor := p.floor.orElse fun _ => c.floor
  minRange := p.minRange.orElse fun _ => c.minRange
  scale := p.scale.orElse fun _ => c.scale
  colour := p.colour.orElse fun _ => c.colour
  sfx := p.sfx.orElse fun _ => c.sfx
  fmt := p.fmt.orElse fun _ => c.fmt
  shared_key := p.shared_key.orElse fun _ => c.shared_key
  hidden := p.hidden.orElse fun _ => c.hidden
  hidden_own := p.hidden_own.orElse fun _ => c.hidden_own
  exclude := p.exclude.orElse fun _ => c.exclude
  exclude_own := p.exclude_own.orElse fun _ => c.exclude_own
  order_priority := p.order_priority.orElse fun _ => c.order_priority

/-- The `SEX GENOTYPER` entries of the `METRICS` catalog (scalar fields;
the conditional formatting dicts are presentation payloads, see
`HeaderConfig`). -/
def METRICS_sex (metric : String) : Option HeaderConfig :=
  if metric = "karyotype" then some
    { order_priority := some 0, exclude := some false, title := some "Kar",
      colour := some "0, 255, 0", hidden := some false,
      description := some "Estimated sex karyotype for the case sample." }
  else if metric = "confidence" then some
    { order_priority := some 1, exclude := some false, title := some "KarConf",
      colour := some "0, 255, 0", hidden := some false, sfx := some " %",
      fmt := some "\x7b:,.4f\x7d", maxv := some 1,
      description := some "Confidence metric ranging from 0.0 to 1.0. If the case sample sex is specified, this metric is 0.0." }
  else none

/-- The `CNV SUMMARY` entries of the `METRICS` catalog. -/
def METRICS_cnv (metric : String) : Option HeaderConfig :=
  if metric = "bases in reference genome" then some
    { title := some (baseCountPfx ++ " bases"), hidden_own := some true,
      scale := some "RdYlGn", colour := some "0, 0, 255", fmt := some "\x7b:,.0f\x7d",
      description := some ("Bases (" ++ baseCountDesc ++ ") in reference genome in use.") }
  else if metric = "average alignment coverage over genome" then some
    { order_priority := some 2, title := some "AvgCov", scale := some "YlOrRd",
      colour := some "150, 50, 0", sfx := some " %",
      description := some "Average alignment coverage over genome." }
  else if metric = "number of alignment records" then some
    { order_priority := some 3, title := some (PREFIX_M ++ " Aln records"),
      scale := some "BrBG", colour := some "0, 55, 100", fmt := some "\x7b:,.0f\x7d",
      description := some ("Number (" ++ DESCR_UNIT ++ ") of alignment records processed.") }
  else if metric = "coverage uniformity" then some
    { order_priority := some 4, title := some "CovUnif", scale := some "Reds",
      colour := some "0, 0, 255", sfx := some " %", fmt := some "\x7b:,.2f\x7d",
      description := some "Coverage uniformity." }
  else if metric = "number of target intervals" then some
    { order_priority := some 5, title := some "Trg intervals", scale := some "Greens",
      colour := some "0, 255, 200", fmt := some "\x7b:,.0f\x7d",
      description := some "Number of target intervals." }
  else if metric = "number of segments" then some
    { order_priority := some 6, title := some "Segments", scale := some "Blues",
      colour := some "250, 0, 0", fmt := some "\x7b:,.0f\x7d",
      description := some "Number of segments." }
  else if metric = "number of filtered records (total)" then some
    { order_priority := some 7, title := some (PREFIX_M ++ " Total"),
      scale := some "Purples", colour := some "255, 0, 255", fmt := some "\x7b:,.2f\x7d",
      description := some ("Number (" ++ DESCR_UNIT ++ ") of filtered records (total).") }
  else if metric = "number of filtered records (total)" ++ V2 then some
    { order_priority := some (71/10), title := some "Total%", scale := some "Oranges",
      colour := some "255, 0, 255", sfx := some " %",
      description := some "Percentage of filtered records (total)." }
  else if metric = "number of filtered records (duplicates)" then some
    { order_priority := some (72/10), title := some "Duplicates",
      colour := some "255, 0, 255", scale := some "Greens", fmt := some "\x7b:,.2f\x7d",
      description := some "Number of filtered records (due to duplicates)." }
  else if metric = "number of filtered records (duplicates)" ++ V2 then some
    { order_priority := some (73/10), title := some "Duplicates%",
      colour := some "255, 0, 255", sfx := some " %",
      description := some "Percentage of filtered records (due to duplicates)." }
  else if metric = "number of filtered records (mapq)" then some
    { order_priority := some (74/10), title := some (PREFIX_M ++ " MAPQ"),
      colour := some "255, 0, 255", scale := some "Reds", fmt := some "\x7b:,.2f\x7d",
      description := some ("Number (" ++ DESCR_UNIT ++ ") of filtered records (due to MAPQ).") }
  else if metric = "number of filtered records (mapq)" ++ V2 then some
    { order_priority := some (75/10), title := some "MAPQ%",
      colour := some "255, 0, 255", sfx := some " %",
      description := some "Percentage of filtered records (due to MAPQ)." }
  else if metric = "number of filtered records (unmapped)" then some
    { order_priority := some (76/10), title := some (PREFIX_M ++ " Unmapped"),
      scale := some "PiYG", colour := some "255, 0, 255", fmt := some "\x7b:,.2f\x7d",
      description := some ("Number (" ++ DESCR_UNIT ++ ") of filtered records (due to being unmapped).") }
  else if metric = "number of filtered records (unmapped)" ++ V2 then some
    { order_priority := some (77/10), title := some "Unmapped%",
      colour := some "255, 0, 255", sfx := some " %",
      description := some "Percentage of filtered records (due to being unmapped)." }
  else if metric = "number of amplifications" then some
    { order_priority := some 8, title := some "Amplifs", scale := some "RdYlGn",
      colour := some "255, 255, 0", fmt := some "\x7b:,.0f\x7d",
      description := some "Number of amplifications." }
  else if metric = "number of passing amplifications" then some
    { order_priority := some (81/10), title := some "Amplifs PASS", scale := some "PiYG",
      colour := some "255, 255, 0", fmt := some "\x7b:,.0f\x7d",
      description := some "Number of PASS amplifications." }
  else if metric = "number of passing amplifications" ++ V2 then some
    { order_priority := some (82/10), title := some "Amplifs PASS%",
      colour := some "255, 255, 0", sfx := some " %",
      description := some "Percentage of PASS amplifications." }
  else if metric = "number of deletions" then some
    { order_priority := some 9, title := some "Deletions", scale := some "Reds",
      colour := some "0, 0, 255", fmt := some "\x7b:,.0f\x7d",
      description := some "Number of deletions." }
  else if metric = "number of passing deletions" then some
    { order_priority := some (91/10), title := some "Deletions PASS", scale := some "BrBG",
      colour := some "0, 0, 255", fmt := some "\x7b:,.0f\x7d",
      description := some "Number of PASS deletions." }
  else if metric = "number of passing deletions" ++ V2 then some
    { order_priority := some (92/10), title := some "Deletions PASS%",
      scale := some "Oranges", colour := some "0, 0, 255", sfx := some " %",
      description := some "Percentage of PASS deletions." }
  else if metric = "number of de novo calls" then some
    { order_priority := some 10, title := some "de Novo", scale := some "Greens",
      colour := some "255, 0, 0", fmt := some "\x7b:,.0f\x7d" }
  else if metric = "number of passing de novo calls" then some
    { order_priority := some (101/10), title := some "de Novo PASS",
      colour := some "255, 0, 0", fmt := some "\x7b:,.0f\x7d",
      description := some "Number of passing de novo calls." }
  else if metric = "number of passing de novo calls" ++ V2 then some
    { order_priority := some (102/10), title := some "de Novo PASS%",
      scale := some "Purples", colour := some "255, 0, 0", sfx := some " %",
      description := some "Percentage of passing de novo calls." }
  else none

/-- `metric in METRICS[section]` plus the entry itself. -/
def METRICS_lookup (sect metric : String) : Option HeaderConfig :=
  if sect = SEX_GENOTYPER_SECTION then METRICS_sex metric
  else if sect = CNV_SUMMARY_SECTION then METRICS_cnv metric
  else none

/-- `make_header`: start from the filtered `SINGLE_HEADER`, overlay the
catalog entry when the metric is known, otherwise fall back to the raw
metric name as title and description. -/
def make_header (metric sect : String) : HeaderConfig :=
  match METRICS_lookup sect metric with
  | some patch => overlay SINGLE_HEADER_BASE patch
  | none => { SINGLE_HEADER_BASE with title := some metric, description := some metric }

/-- `make_panel_headers`: the pair of headers for one panel sample, plus the
updated `order_counter` (the closure variable is advanced by two, once per
header, on every call). -/
def make_panel_headers (sample : String) (counter : ℕ) :
    HeaderConfig × HeaderConfig × ℕ :=
  let c1 : HeaderConfig :=
    { SINGLE_HEADER_BASE with
      order_priority := some (counter : ℚ),
      title := some ("Kar " ++ sample),
      colour := some "0, 255, 255",
      description := some ("Estimated sex karyotype for the panel sample " ++ sample) }
  let c2 : HeaderConfig :=
    { SINGLE_HEADER_BASE with
      order_priority := some ((counter : ℚ) + 1),
      title := some ("KarConf " ++ sample),
      colour := some "0, 255, 255",
      description := some ("Confidence metric for the panel sample " ++ sample ++
        " ranging from 0.0 to 1.0. If the sample sex is specified, this metric is 0.0."),
      sfx := some " %",
      fmt := some "\x7b:,.4f\x7d",
      maxv := some 1 }
  (c1, c2, counter + 2)

/-- the class `[^.]` -/
def notDot (c : Char) : Bool := decide (c ≠ '.')

/-- the class `[^,]` -/
def notComma (c : Char) : Bool := decide (c ≠ ',')

/-- the metacharacter `.` (anything but a newline) -/
def dotAny (c : Char) : Bool := decide (c ≠ '\n')

/-- the class of the empty capture group `()` -/
def noChar (_ : Char) : Bool := false

/-- `FILE_RGX = re.compile(r"^([^.]+)\.cnv_metrics\.csv$")` -/
def FILE_RGX : List Tok :=
  [Tok.grpPlus notDot, Tok.lit ".cnv_metrics.csv".data]

/-- `LINE_RGX = re.compile("^(SEX GENOTYPER|CNV SUMMARY),,([^,]+),([^,]+),?([^,]*)$")` -/
def LINE_RGX : List Tok :=
  [Tok.altG ["SEX GENOTYPER".data, "CNV SUMMARY".data],
   Tok.lit ",,".data,
   Tok.grpPlus notComma,
   Tok.lit ",".data,
   Tok.grpPlus notComma,
   Tok.optCh ',',
   Tok.grpStar notComma]

/-- `FILE_RGX.search(file_name)` reduced to its captured group; the leading
and trailing anchors make the search an anchored full match. -/
def cnvFileMatch (fn : String) : Option String :=
  match matchToks false true FILE_RGX fn.data with
  | some (g :: _) => some (String.mk g)
  | _ => none

/-- `LINE_RGX.search(line)` reduced to its four captured groups. -/
def cnvLineMatch (line : String) : Option (String × String × String × String) :=
  match matchToks false true LINE_RGX line.data with
  | some [sec, m, v1, v2] =>
    some (String.mk sec, String.mk m, String.mk v1, String.mk v2)
  | _ => none

/-- `log_data` of the CNV module.  The nested defaultdicts become flat
association structures: invalid names and lines are appended, unusual values
live in a per `(root, file, metric)` dict. -/
structure CnvLog where
  invalid_file_names : List (String × String) := []
  invalid_file_lines : List ((String × String) × String) := []
  unusual_values : List ((String × String × String) × String) := []
deriving DecidableEq, Repr

/-- Value check for the first value of a `CNV SUMMARY` line: `int` first,
then `float`, otherwise keep the string and record an unusual value under
the raw metric name. -/
def cnvCoerceV1 (root fn metric v1 : String) (log : CnvLog) : MetricValue × CnvLog :=
  match pyInt v1 with
  | some z => (MetricValue.int z, log)
  | none =>
    match pyFloat v1 with
    | some f => (MetricValue.float f, log)
    | none =>
      (MetricValue.str v1,
       { log with unusual_values := upsertKV (root, fn, metric) v1 log.unusual_values })

/-- Value check for the second value of a line: `float` first, then `int`,
otherwise keep the string and record an unusual value under `logKey` (the
raw metric name with the `V2` marker appended, at every call site). -/
def cnvCoerceV2 (root fn logKey v2 : String) (log : CnvLog) : MetricValue × CnvLog :=
  match pyFloat v2 with
  | some f => (MetricValue.float f, log)
  | none =>
    match pyInt v2 with
    | some z => (MetricValue.int z, log)
    | none =>
      (MetricValue.str v2,
       { log with unusual_values := upsertKV (root, fn, logKey) v2 log.unusual_values })

/-- The state living outside a single call of `cnvMetricsParse`: the
shared `cnv_headers` dict, the `order_counter` closure variable and the
`log_data`. -/
structure CnvSt where
  headers : List (String × HeaderConfig) := []
  counter : ℕ := RESERVED_START
  log : CnvLog := {}
deriving DecidableEq, Repr

/-- The per file state of the line loop of `cnvMetricsParse`. -/
structure CnvLineSt where
  base : CnvSt
  data : List (String × MetricValue) := []
  success : Bool := false
  caseNotCaught : Bool := true
deriving DecidableEq, Repr

/-- One iteration of the line loop of `cnvMetricsParse`. -/
def cnvProcessLine (root fn : String) (st : CnvLineSt) (line : String) : CnvLineSt :=
  match cnvLineMatch line with
  | some (sec, metric, value1, value2) =>
    if sec = "CNV SUMMARY" then
      let metric_id := make_metric_id metric
      let (v1, log1) := cnvCoerceV1 root fn metric value1 st.base.log
      let data1 := upsertKV metric_id v1 st.data
      let headers1 :=
        if hasKey metric_id st.base.headers then st.base.headers
        else st.base.headers ++ [(metric_id, make_header metric_id CNV_SUMMARY_SECTION)]
      if value2 ≠ "" then
        let (v2, log2) := cnvCoerceV2 root fn (metric ++ V2) value2 log1
        let mid2 := metric_id ++ V2
        let data2 := upsertKV mid2 v2 data1
        let headers2 :=
          if hasKey mid2 headers1 then headers1
          else headers1 ++ [(mid2, make_header mid2 CNV_SUMMARY_SECTION)]
        { base := { st.base with headers := headers2, log := log2 },
          data := data2, success := true, caseNotCaught := st.caseNotCaught }
      else
        { base := { st.base with headers := headers1, log := log1 },
          data := data1, success := true, caseNotCaught := st.caseNotCaught }
    else
      -- the `SEX GENOTYPER` branch
      let step :=
        if st.caseNotCaught then
          let mid := "Karyotype case sample"
          let h1 :=
            if hasKey mid st.base.headers then st.base.headers
            else st.base.headers ++ [(mid, make_header "karyotype" SEX_GENOTYPER_SECTION)]
          let h2 :=
            if hasKey (mid ++ V2) h1 then h1
            else h1 ++ [(mid ++ V2, make_header "confidence" SEX_GENOTYPER_SECTION)]
          (mid, h2, st.base.counter)
        else
          let mid := "Karyotype panel sample " ++ metric
          let (c1, c2, counter2) := make_panel_headers metric st.base.counter
          let h1 :=
            if hasKey mid st.base.headers then st.base.headers
            else st.base.headers ++ [(mid, c1)]
          let h2 :=
            if hasKey (mid ++ V2) h1 then h1
            else h1 ++ [(mid ++ V2, c2)]
          (mid, h2, counter2)
      let mid := step.1
      let headers1 := step.2.1
      let counter1 := step.2.2
      let data1 := upsertKV mid (MetricValue.str value1) st.data
      if value2 ≠ "" then
        let (v2, log2) := cnvCoerceV2 root fn (metric ++ V2) value2 st.base.log
        let data2 := upsertKV (mid ++ V2) v2 data1
        { base := { headers := headers1, counter := counter1, log := log2 },
          data := data2, success := true, caseNotCaught := false }
      else
        { base := { headers := headers1, counter := counter1, log := st.base.log },
          data := data1, success := true, caseNotCaught := false }
  | none =>
    if (line.data.all pyIsSpace : Bool) then st
    else
      { st with base :=
        { st.base with log :=
          { st.base.log with invalid_file_lines :=
              st.base.log.invalid_file_lines ++ [((root, fn), line)] } } }

/-- A discovered log file: its directory, name and the lines of its
content (splitlines). -/
structure CnvFile where
  root : String
  fn : String
  content : List String
deriving DecidableEq, Repr

/-- The result dict of `cnvMetricsParse`: either the bare
`{"success": 0}` of a rejected file name, or the full result. -/
inductive CnvOut where
  | fail
  | parsed (success : Bool) (sample : String) (data : List (String × MetricValue))
deriving DecidableEq, Repr

/-- `cnvMetricsParse`. -/
def cnvMetricsParse (f : CnvFile) (st : CnvSt) : CnvOut × CnvSt :=
  match cnvFileMatch f.fn with
  | none =>
    (CnvOut.fail,
     { st with log :=
        { st.log with invalid_file_names := st.log.invalid_file_names ++ [(f.root, f.fn)] } })
  | some sample =>
    let final := f.content.foldl (cnvProcessLine f.root f.fn)
      { base := st, data := [], success := false, caseNotCaught := true }
    (CnvOut.parsed final.success sample final.data, final.base)

/-- The batch state of `add_cnv_metrics`: the sample table, the cleaned
name bookkeeping consumed by the duplicate report, and the parser state. -/
structure CnvBatch where
  cnv_data : List (String × List (String × MetricValue)) := []
  all_samples : List (String × List CnvFile) := []
  st : CnvSt := {}
deriving DecidableEq, Repr

/-- One iteration of the file loop of `add_cnv_metrics`.  `clean` is the
external `clean_s_name` collaborator. -/
def cnvLoopStep (clean : String → CnvFile → String) (b : CnvBatch) (f : CnvFile) : CnvBatch :=
  let (out, st2) := cnvMetricsParse f b.st
  match out with
  | CnvOut.fail => { b with st := st2 }
  | CnvOut.parsed success sample data =>
    if success then
      let cleaned := clean sample f
      { cnv_data := upsertKV cleaned data b.cnv_data,
        all_samples := appendAt cleaned f b.all_samples,
        st := st2 }
    else { b with st := st2 }

/-- The file loop of `add_cnv_metrics`, before the external
`ignore_samples` filter and rendering steps. -/
def add_cnv_metrics (clean : String → CnvFile → String) (files : List CnvFile) : CnvBatch :=
  files.foldl (cnvLoopStep clean) {}

/-! ## The coverage metrics module (coverage_metrics.py) -/

/-- A discovered coverage log file. -/
structure CovFile where
  root : String
  fn : String
  content : List String
deriving DecidableEq, Repr

/-- `re.search(r"(.+)\.(.+)_coverage_metrics(.*).csv", fn)`; note the last
dot is an unescaped metacharacter and the pattern is unanchored. -/
def COV_FILE_RGX1 : List Tok :=
  [Tok.grpPlus dotAny, Tok.lit ".".data, Tok.grpPlus dotAny,
   Tok.lit "_coverage_metrics".data, Tok.grpStar dotAny, Tok.cls1 dotAny,
   Tok.lit "csv".data]

/-- `re.search(r"(.+)()_coverage_metrics(.*).csv", fn)`, the fallback for a
name without a dot before the infix; the second group is empty. -/
def COV_FILE_RGX2 : List Tok :=
  [Tok.grpPlus dotAny, Tok.grpStar noChar,
   Tok.lit "_coverage_metrics".data, Tok.grpStar dotAny, Tok.cls1 dotAny,
   Tok.lit "csv".data]

/-- The two file name searches of `parse_coverage_metrics`, reduced to the
three captured groups. -/
def covFileMatch (fn : String) : Option (String × String × String) :=
  match searchToks false false COV_FILE_RGX1 fn.data with
  | some [g1, g2, g3] => some (String.mk g1, String.mk g2, String.mk g3)
  | _ =>
    match searchToks false false COV_FILE_RGX2 fn.data with
    | some [g1, g2, g3] => some (String.mk g1, String.mk g2, String.mk g3)
    | _ => none

/-- Prefix test on character lists. -/
def isPrefixList : List Char → List Char → Bool
  | [], _ => true
  | _ :: _, [] => false
  | a :: as, b :: bs => a = b && isPrefixList as bs

/-- Worker for `pyReplace`, structurally recursive on a fuel that starts at
the input length (each step consumes at least one character, so the fuel
never runs out on the inputs `pyReplace` passes). -/
def replaceAllAux (old new : List Char) : ℕ → List Char → List Char
  | _, [] => []
  | 0, s => s
  | fuel + 1, c :: cs =>
    if isPrefixList old (c :: cs) then
      new ++ replaceAllAux old new fuel ((c :: cs).drop old.length)
    else c :: replaceAllAux old new fuel cs

/-- `s.replace(old, new)` for a nonempty `old`: replace every non
overlapping occurrence, scanning left to right — the only use the module
makes of `str.replace`. -/
def pyReplace (s old new : String) : String :=
  String.mk (replaceAllAux old.data new.data s.data.length s.data)

/-- `clean_sp`. -/
def clean_sp (sample phenotype : String) : String × String :=
  let sample1 := pyReplace (pyReplace sample "-" " ") "_" " "
  let phenotype1 := pyReplace (pyReplace phenotype "-" " ") "_" " "
  let phenotype2 := pyReplace (pyReplace phenotype1 "region" "") "coverage" ""
  let sample2 := pyReplace (pyReplace sample1 "dragen" "") "SAMPLE" ""
  (sample2, phenotype2)

/-- `re.search("COVERAGE SUMMARY,,([^,]+),([^,]+),?(.*)", line, re.IGNORECASE)`
reduced to its three captured groups; the third group is an unrestricted
remainder. -/
def COV_LINE_RGX : List Tok :=
  [Tok.lit "COVERAGE SUMMARY,,".data, Tok.grpPlus notComma, Tok.lit ",".data,
   Tok.grpPlus notComma, Tok.optCh ',', Tok.grpStar dotAny]

/-- The coverage line search. -/
def covLineMatch (line : String) : Option (String × String × String) :=
  match searchToks true false COV_LINE_RGX line.data with
  | some [m, v1, v2] => some (String.mk m, String.mk v1, String.mk v2)
  | _ => none

/-- Coverage value check for value1: `int`, then `float`, else the string is
kept (the module only emits a debug log line, it has no structured log). -/
def covCoerceV1 (v : String) : MetricValue :=
  match pyInt v with
  | some z => MetricValue.int z
  | none =>
    match pyFloat v with
    | some f => MetricValue.float f
    | none => MetricValue.str v

/-- Coverage value check for value2: `float`, then `int`, else the string is
kept. -/
def covCoerceV2 (v : String) : MetricValue :=
  match pyFloat v with
  | some f => MetricValue.float f
  | none =>
    match pyInt v with
    | some z => MetricValue.int z
    | none => MetricValue.str v

/-- The official name (or name pair, for two valued metrics) produced by the
`metric` lambda of a `cov_pats` entry. -/
inductive CovMetricNames where
  | one (name : String)
  | two (name pct : String)
deriving DecidableEq, Repr

/-- `cov_pats`, in dict insertion order: for each pattern the token program
of its key regex, whether the key carries a trailing `$`, and its `metric`
lambda applied to the single captured group.  The `configs` lambdas build
the presentation payloads of the header tables; no claim reads those
payloads, so the header tables are carried as key sets (see
`CovHeadersSt`). -/
def cov_pats : List (List Tok × Bool × (String → CovMetricNames)) :=
  [([Tok.lit "Aligned ".data, Tok.altG ["bases".data, "reads".data]], true,
    fun x => CovMetricNames.one ("Aligned " ++ x ++ ".")),
   ([Tok.lit "Aligned ".data, Tok.altG ["bases".data, "reads".data],
     Tok.lit " in ".data, Tok.clsPlus dotAny], false,
    fun x => CovMetricNames.two ("Aligned " ++ x ++ " in region.")
      ("Percentage of aligned " ++ x ++ " in region.")),
   ([Tok.lit "Average alignment coverage over ".data, Tok.clsPlus dotAny,
     Tok.grpStar noChar], false,
    fun _ => CovMetricNames.one "Average alignment coverage over region."),
   ([Tok.lit "Uniformity of coverage (".data, Tok.grpPlus dotAny,
     Tok.lit ") over ".data, Tok.clsPlus dotAny], false,
    fun x => CovMetricNames.one ("Uniformity of coverage " ++ x ++ " over region")),
   ([Tok.lit "PCT of ".data, Tok.clsPlus dotAny, Tok.lit " with coverage ".data,
     Tok.grpPlus dotAny], false,
    fun x => CovMetricNames.one ("PCT of region with coverage region " ++ x)),
   ([Tok.lit "Average ".data,
     Tok.altG ["chr X".data, "chr Y".data, "mitochondrial".data, "autosomal".data],
     Tok.lit " coverage over ".data, Tok.clsPlus dotAny], false,
    fun x => CovMetricNames.one ("Average " ++ x ++ " coverage over region.")),
   ([Tok.lit "Median autosomal coverage over ".data, Tok.clsPlus dotAny,
     Tok.grpStar noChar], false,
    fun _ => CovMetricNames.one "Median autosomal coverage over region."),
   ([Tok.lit "Mean/Median autosomal coverage ratio over ".data, Tok.clsPlus dotAny,
     Tok.grpStar noChar], false,
    fun _ => CovMetricNames.one "Mean/Median autosomal coverage ratio over region."),
   ([Tok.lit "XAvgCov/YAvgCov ratio over ".data, Tok.clsPlus dotAny,
     Tok.grpStar noChar], false,
    fun _ => CovMetricNames.one "XAvgCov/YAvgCov ratio over region."),
   ([Tok.altG ["X".data, "Y".data], Tok.lit "AvgCov/AutosomalAvgCov ratio over ".data,
     Tok.clsPlus dotAny], false,
    fun x => CovMetricNames.one (x ++ "AvgCov/AutosomalAvgCov ratio over region."))]

/-- The `for metric_pattern in cov_pats` loop: first matching pattern wins,
its `metric` lambda is applied to the captured group. -/
def covMatchMetric : List (List Tok × Bool × (String → CovMetricNames)) → String →
    Option CovMetricNames
  | [], _ => none
  | (toks, anchEnd, tpl) :: rest, metric =>
    match searchToks true anchEnd toks metric.data with
    | some gs => some (tpl (String.mk (gs.headD [])))
    | none => covMatchMetric rest metric

/-- The two module level header tables, carried as key sets: the config
payload each key maps to is assembled from the `configs` lambdas of
`cov_pats` and is read by no claim. -/
structure CovHeadersSt where
  th_sample : List String := []
  th_pheno : List String := []
deriving DecidableEq, Repr

/-- The state of the line loop of `parse_coverage_metrics`. -/
structure CovLineSt where
  hs : CovHeadersSt
  data : List (String × MetricValue) := []
deriving DecidableEq, Repr

/-- One iteration of the line loop of `parse_coverage_metrics`.  Mirrors the
source order: line match, value checks, pattern search, header table
inserts for the base and percentage names, then the reset of `metric_pct`
just before the data writes. -/
def covProcessLine (phenotype : String) (st : CovLineSt) (line : String) : CovLineSt :=
  match covLineMatch line with
  | none => st
  | some (metric0, value1r, value2r) =>
    let value1 := covCoerceV1 value1r
    let value2 : MetricValue :=
      if value2r ≠ "" then covCoerceV2 value2r else MetricValue.str value2r
    match covMatchMetric cov_pats metric0 with
    | none => st
    | some names =>
      let metric := match names with
        | CovMetricNames.one n => n
        | CovMetricNames.two n _ => n
      let metric_pct0 := match names with
        | CovMetricNames.one _ => ""
        | CovMetricNames.two _ p => p
      let th1 :=
        if metric ∈ st.hs.th_sample then st.hs.th_sample
        else st.hs.th_sample ++ [metric] ++ (if metric_pct0 ≠ "" then [metric_pct0] else [])
      -- `metric_pct = ''` is reassigned here in the source, and the
      -- following `isinstance(metric, list)` test can no longer hold
      let metric_pct := ""
      let metric2 := phenotype ++ " " ++ metric
      let th2 :=
        if metric2 ∈ st.hs.th_pheno then st.hs.th_pheno
        else st.hs.th_pheno ++ [metric2] ++ (if metric_pct ≠ "" then [metric_pct] else [])
      let data1 := upsertKV metric value1 st.data
      let data2 := if pyTruthy value2 then upsertKV metric_pct value2 data1 else data1
      { hs := { th_sample := th1, th_pheno := th2 }, data := data2 }

/-- A value of the tuple returned by `parse_coverage_metrics`: the rejection
branch returns integer zeros, the success branch strings and the data
dict. -/
inductive CovVal where
  | i (z : ℤ)
  | s (v : String)
  | dict (d : List (String × MetricValue))
deriving DecidableEq, Repr

/-- The result of `parse_coverage_metrics`: the returned tuple (as the list
of its members, since the two return sites have different arities) and the
updated module level header tables. -/
structure CovResult where
  ret : List CovVal
  hs : CovHeadersSt
deriving DecidableEq, Repr

/-- `parse_coverage_metrics`. -/
def parse_coverage_metrics (f : CovFile) (hs : CovHeadersSt) : CovResult :=
  match covFileMatch f.fn with
  | none => { ret := [CovVal.i 0, CovVal.i 0, CovVal.i 0, CovVal.i 0], hs := hs }
  | some (g1, g2, g3) =>
    let phenotype0 := if g3 ≠ "" then g2 ++ "_" ++ g3 else g2
    let sp := clean_sp g1 phenotype0
    let final := f.content.foldl (covProcessLine sp.2) { hs := hs, data := [] }
    { ret := [CovVal.s sp.1, CovVal.s sp.2, CovVal.dict final.data], hs := final.hs }

/-- The tuple unpacking `sample, phenotype, data = parse_coverage_metrics(f)`
performed by the loop of `add_coverage_metrics`: anything but a three
element tuple raises a `ValueError`. -/
def unpack3 (l : List CovVal) : Except String (CovVal × CovVal × CovVal) :=
  match l with
  | [a, b, c] => Except.ok (a, b, c)
  | _ => Except.error "ValueError"

/-! ## Concrete batch inputs used by the claim instances -/

/-- Two files with the same name in one directory, different segment
counts. -/
def fileDupA1 : CnvFile :=
  { root := "run1", fn := "SAMPLE_A.cnv_metrics.csv",
    content := ["CNV SUMMARY,,Number of Segments,17"] }

/-- See `fileDupA1`. -/
def fileDupA2 : CnvFile :=
  { root := "run1", fn := "SAMPLE_A.cnv_metrics.csv",
    content := ["CNV SUMMARY,,Number of Segments,99"] }

/-- A cleaning stub that keeps raw names. -/
def rawClean : String → CnvFile → String := fun s _ => s

/-- Two files with distinct raw sample names that a cleaning stub
collapses. -/
def fileClash1 : CnvFile :=
  { root := "run1", fn := "Sample-1.cnv_metrics.csv",
    content := ["CNV SUMMARY,,Number of Segments,17"] }

/-- See `fileClash1`. -/
def fileClash2 : CnvFile :=
  { root := "run1", fn := "Sample_1.cnv_metrics.csv",
    content := ["CNV SUMMARY,,Number of Segments,99"] }

/-- A cleaning stub collapsing `Sample-1` and `Sample_1` to `Sample1`. -/
def stubClean : String → CnvFile → String :=
  fun s _ => if s = "Sample-1" ∨ s = "Sample_1" then "Sample1" else s

/-- A file whose name matches neither naming grammar. -/
def badNameCnvFile : CnvFile := { root := "run1", fn := "bad.csv", content := [] }

/-- See `badNameCnvFile`. -/
def badNameCovFile : CovFile := { root := "run1", fn := "bad.csv", content := [] }

/-- A coverage file whose only line carries the second value `0`. -/
def covFileZeroV2 : CovFile :=
  { root := "run1", fn := "S.wgs_coverage_metrics.csv",
    content := ["COVERAGE SUMMARY,,Aligned bases in wgs,100,0"] }

/-- A coverage file whose only line carries the second value `12.5`. -/
def covFileHalfV2 : CovFile :=
  { root := "run1", fn := "S.wgs_coverage_metrics.csv",
    content := ["COVERAGE SUMMARY,,Aligned bases in wgs,100,12.5"] }

/-- A CNV file whose only line carries two values. -/
def cnvTwoValFile : CnvFile :=
  { root := "run1", fn := "S.cnv_metrics.csv",
    content := ["CNV SUMMARY,,Number of passing deletions,5,22.2"] }

/-- A CNV file whose sex genotyper value contains neither X nor Y. -/
def sexNoXYFile : CnvFile :=
  { root := "run1", fn := "S1.cnv_metrics.csv",
    content := ["SEX GENOTYPER,,SAMPLE_1,ZZ,0.5"] }

/-- A line state in which the case sample has already been caught. -/
def panelStateEx : CnvLineSt :=
  { base := {}, data := [], success := true, caseNotCaught := false }

/-- No two adjacent characters are both whitespace; the shape invariant of
`collapseWs` outputs used by the normalization proofs. -/
def wsPairFree : List Char → Bool
  | [] => true
  | [_] => true
  | a :: b :: rest => (!(pyIsSpace a && pyIsSpace b)) && wsPairFree (b :: rest)

/-- The shape predicate each capturing token guarantees for its captured
group, used to state the soundness of the matcher. -/
def tokPreds : List Tok → List (List Char → Prop)
  | [] => []
  | Tok.altG _ :: ts => (fun _ => True) :: tokPreds ts
  | Tok.grpPlus cls :: ts =>
    (fun g => g ≠ [] ∧ ∀ c ∈ g, cls c = true) :: tokPreds ts
  | Tok.grpStar cls :: ts => (fun g => ∀ c ∈ g, cls c = true) :: tokPreds ts
  | Tok.lit _ :: ts => tokPreds ts
  | Tok.clsPlus _ :: ts => tokPreds ts
  | Tok.clsStar _ :: ts => tokPreds ts
  | Tok.cls1 _ :: ts => tokPreds ts
  | Tok.optCh _ :: ts => tokPreds ts

/-! ## Character lemmas -/

theorem char_le_iff (a b : Char) : a ≤ b ↔ a.toNat ≤ b.toNat := by
  simp [Char.le_def, UInt32.le_def, Char.toNat, UInt32.toNat, BitVec.le_def]

theorem char_eq_iff (a b : Char) : a = b ↔ a.toNat = b.toNat := by
  constructor
  · intro h; rw [h]
  · intro h
    apply Char.eq_of_val_eq
    apply UInt32.eq_of_toBitVec_eq
    exact BitVec.eq_of_toNat_eq h

theorem char_toNat_ofNat (n : ℕ) (h : n < 55296) : (Char.ofNat n).toNat = n := by
  have hv : Nat.isValidChar n := Or.inl h
  simp [Char.ofNat, hv, Char.toNat, Char.ofNatAux, UInt32.toNat, UInt32.ofNatCore]

theorem pyToLower_toNat_of_upper {c : Char} (h : 'A' ≤ c ∧ c ≤ 'Z') :
    (pyToLower c).toNat = c.toNat + 32 := by
  have h2 : c.toNat ≤ 90 := by
    have := (char_le_iff c 'Z').mp h.2
    simpa using this
  rw [pyToLower, if_pos h, char_toNat_ofNat _ (by omega)]

theorem pyToLower_idem (c : Char) : pyToLower (pyToLower c) = pyToLower c := by
  by_cases h : 'A' ≤ c ∧ c ≤ 'Z'
  · have h1 : 65 ≤ c.toNat := by
      have := (char_le_iff 'A' c).mp h.1
      simpa using this
    have h2 : c.toNat ≤ 90 := by
      have := (char_le_iff c 'Z').mp h.2
      simpa using this
    have hd : (pyToLower c).toNat = c.toNat + 32 := pyToLower_toNat_of_upper h
    have hno : ¬ ('A' ≤ pyToLower c ∧ pyToLower c ≤ 'Z') := by
      intro hcon
      have hz : (pyToLower c).toNat ≤ 90 := by
        have := (char_le_iff (pyToLower c) 'Z').mp hcon.2
        simpa using this
      omega
    conv_lhs => rw [pyToLower]
    rw [if_neg hno]
  · simp [pyToLower, h]

theorem toNat_le_of_pyIsSpace {c : Char} (h : pyIsSpace c = true) : c.toNat ≤ 32 := by
  simp only [pyIsSpace, Bool.or_eq_true, decide_eq_true_eq] at h
  rcases h with ((((h | h) | h) | h) | h) | h <;> subst h <;> decide

theorem pyIsSpace_pyToLower (c : Char) : pyIsSpace (pyToLower c) = pyIsSpace c := by
  by_cases h : 'A' ≤ c ∧ c ≤ 'Z'
  · have h1 : 65 ≤ c.toNat := by
      have := (char_le_iff 'A' c).mp h.1
      simpa using this
    have hd : (pyToLower c).toNat = c.toNat + 32 := pyToLower_toNat_of_upper h
    have hsc : pyIsSpace c = false := by
      cases hx : pyIsSpace c
      · rfl
      · exact absurd (toNat_le_of_pyIsSpace hx) (by omega)
    have hsd : pyIsSpace (pyToLower c) = false := by
      cases hx : pyIsSpace (pyToLower c)
      · rfl
      · exact absurd (toNat_le_of_pyIsSpace hx) (by omega)
    rw [hsc, hsd]
  · simp [pyToLower, h]

theorem pyToLower_space : pyToLower ' ' = ' ' := by decide

/-! ## Strip and collapse lemmas, toward the idempotence of
`make_metric_id` -/

theorem dropWhile_idem (p : α → Bool) (l : List α) :
    (l.dropWhile p).dropWhile p = l.dropWhile p := by
  induction l with
  | nil => rfl
  | cons a t ih =>
    by_cases h : p a
    · simp [List.dropWhile_cons, h, ih]
    · simp [List.dropWhile_cons, h]

theorem head_dropWhile_false {p : α → Bool} :
    ∀ (l : List α) (c : α) (cs : List α), l.dropWhile p = c :: cs → p c = false
  | [], _, _, h => by simp [List.dropWhile] at h
  | a :: t, c, cs, h => by
    by_cases ha : p a
    · rw [List.dropWhile_cons, if_pos ha] at h
      exact head_dropWhile_false t c cs h
    · rw [List.dropWhile_cons, if_neg ha] at h
      cases h
      simpa using ha

theorem dropWhile_pyStripList (l : List Char) :
    (pyStripList l).dropWhile pyIsSpace = pyStripList l := by
  cases hwr : pyStripList l with
  | nil => rfl
  | cons c cs =>
    have hsplit : (l.dropWhile pyIsSpace).reverse
        = (l.dropWhile pyIsSpace).reverse.takeWhile pyIsSpace
          ++ (l.dropWhile pyIsSpace).reverse.dropWhile pyIsSpace :=
      (List.takeWhile_append_dropWhile _ _).symm
    have hudec : l.dropWhile pyIsSpace
        = pyStripList l
          ++ ((l.dropWhile pyIsSpace).reverse.takeWhile pyIsSpace).reverse := by
      have h2 := congrArg List.reverse hsplit
      rw [List.reverse_append, List.reverse_reverse] at h2
      exact h2
    have hc : pyIsSpace c = false := by
      apply head_dropWhile_false l c
        (cs ++ ((l.dropWhile pyIsSpace).reverse.takeWhile pyIsSpace).reverse)
      conv_lhs => rw [hudec]
      rw [hwr]
      simp
    rw [List.dropWhile_cons, if_neg (by simp [hc])]

theorem pyStrip_idem (l : List Char) : pyStripList (pyStripList l) = pyStripList l := by
  calc pyStripList (pyStripList l)
      = (((pyStripList l).dropWhile pyIsSpace).reverse.dropWhile pyIsSpace).reverse := rfl
    _ = ((pyStripList l).reverse.dropWhile pyIsSpace).reverse := by
        rw [dropWhile_pyStripList]
    _ = pyStripList l := by
        have hrev : (pyStripList l).reverse
            = (l.dropWhile pyIsSpace).reverse.dropWhile pyIsSpace := by
          simp [pyStripList]
        rw [hrev, dropWhile_idem]
        simp [pyStripList]

theorem wsPairFree_tail {a : Char} {l : List Char}
    (h : wsPairFree (a :: l) = true) : wsPairFree l = true := by
  cases l with
  | nil => rfl
  | cons b t =>
    simp only [wsPairFree, Bool.and_eq_true] at h
    exact h.2

theorem wsPairFree_cons_build {a : Char} {l : List Char}
    (h : wsPairFree l = true)
    (hhead : ∀ b, l.head? = some b → ¬(pyIsSpace a = true ∧ pyIsSpace b = true)) :
    wsPairFree (a :: l) = true := by
  cases l with
  | nil => rfl
  | cons b t =>
    have hb := hhead b rfl
    simp only [wsPairFree, Bool.and_eq_true]
    refine ⟨?_, h⟩
    simp only [Bool.not_eq_eq_eq_not, Bool.not_true, Bool.and_eq_false_iff]
    by_cases hsa : pyIsSpace a = true
    · right
      cases hsb : pyIsSpace b
      · rfl
      · exact absurd ⟨hsa, hsb⟩ hb
    · left
      simpa using hsa

theorem wsPairFree_append_right :
    ∀ (A B : List Char), wsPairFree (A ++ B) = true → wsPairFree B = true
  | [], _, h => by simpa using h
  | _ :: t, B, h => wsPairFree_append_right t B (wsPairFree_tail (by simpa using h))

theorem wsPairFree_pair (a b : Char) (l : List Char)
    (h : wsPairFree (a :: b :: l) = true) : ¬(pyIsSpace a = true ∧ pyIsSpace b = true) := by
  simp only [wsPairFree, Bool.and_eq_true] at h
  intro hcon
  have := h.1
  rw [hcon.1, hcon.2] at this
  simp at this

theorem wsPairFree_append_left :
    ∀ (A B : List Char), wsPairFree (A ++ B) = true → wsPairFree A = true
  | [], _, _ => rfl
  | [_], _, _ => rfl
  | a :: a2 :: t2, B, h => by
    have hpair : ¬(pyIsSpace a = true ∧ pyIsSpace a2 = true) := by
      apply wsPairFree_pair a a2 (t2 ++ B)
      simpa using h
    have htail : wsPairFree (a2 :: t2) = true :=
      wsPairFree_append_left (a2 :: t2) B (wsPairFree_tail (by simpa using h))
    apply wsPairFree_cons_build htail
    intro b hb
    cases hb
    exact hpair

theorem collapseAux_fixed (u : List Char)
    (hE : ∀ c ∈ u, pyIsSpace c = true → c = ' ')
    (hP : wsPairFree u = true) :
    collapseAux false u = u ∧
      ((∀ d, u.head? = some d → pyIsSpace d = false) → collapseAux true u = u) := by
  induction u with
  | nil => exact ⟨rfl, fun _ => rfl⟩
  | cons c cs ih =>
    have hE2 : ∀ x ∈ cs, pyIsSpace x = true → x = ' ' :=
      fun x hx => hE x (List.mem_cons_of_mem _ hx)
    obtain ⟨ih1, ih2⟩ := ih hE2 (wsPairFree_tail hP)
    by_cases hc : pyIsSpace c = true
    · have hceq : c = ' ' := hE c (List.mem_cons_self _ _) hc
      have htail : collapseAux true cs = cs := by
        apply ih2
        intro d hd
        cases cs with
        | nil => simp at hd
        | cons b t =>
          cases hd
          have hpair := wsPairFree_pair _ _ _ hP
          cases hb : pyIsSpace d
          · rfl
          · exact absurd ⟨hc, hb⟩ hpair
      refine ⟨?_, ?_⟩
      · show collapseAux false (c :: cs) = c :: cs
        rw [collapseAux, if_pos hc, if_neg (by simp), htail, hceq]
      · intro hhead
        have := hhead c rfl
        rw [hc] at this
        simp at this
    · have hcf : pyIsSpace c = false := by simpa using hc
      refine ⟨?_, fun _ => ?_⟩
      · rw [collapseAux, if_neg (by simp [hcf]), ih1]
      · rw [collapseAux, if_neg (by simp [hcf]), ih1]

theorem collapseAux_elems (l : List Char) :
    ∀ (b : Bool), ∀ c ∈ collapseAux b l, pyIsSpace c = true → c = ' ' := by
  induction l with
  | nil => intro b c hc; simp [collapseAux] at hc
  | cons a t ih =>
    intro b c hc hws
    by_cases ha : pyIsSpace a = true
    · rw [collapseAux, if_pos ha] at hc
      cases b with
      | true => exact ih true c hc hws
      | false =>
        rw [if_neg (by simp)] at hc
        rcases List.mem_cons.mp hc with h | h
        · exact h
        · exact ih true c h hws
    · rw [collapseAux, if_neg ha] at hc
      rcases List.mem_cons.mp hc with h | h
      · subst h; exact absurd hws (by simpa using ha)
      · exact ih false c h hws

theorem collapseAux_shape (l : List Char) :
    wsPairFree (collapseAux false l) = true ∧
    (wsPairFree (collapseAux true l) = true ∧
      ∀ d, (collapseAux true l).head? = some d → pyIsSpace d = false) := by
  induction l with
  | nil => exact ⟨rfl, rfl, by intro d hd; simp [collapseAux] at hd⟩
  | cons a t ih =>
    obtain ⟨ihF, ihT, ihH⟩ := ih
    by_cases ha : pyIsSpace a = true
    · have hfalse : collapseAux false (a :: t) = ' ' :: collapseAux true t := by
        rw [collapseAux, if_pos ha, if_neg (by simp)]
      have htrue : collapseAux true (a :: t) = collapseAux true t := by
        rw [collapseAux, if_pos ha, if_pos rfl]
      refine ⟨?_, ?_, ?_⟩
      · rw [hfalse]
        apply wsPairFree_cons_build ihT
        intro b hb
        intro hcon
        exact absurd (ihH b hb) (by simp [hcon.2])
      · rw [htrue]; exact ihT
      · rw [htrue]; exact ihH
    · have hval : ∀ b, collapseAux b (a :: t) = a :: collapseAux false t := by
        intro b; rw [collapseAux, if_neg ha]
      refine ⟨?_, ?_, ?_⟩
      · rw [hval false]
        apply wsPairFree_cons_build ihF
        intro b _ hcon
        exact absurd hcon.1 (by simpa using ha)
      · rw [hval true]
        apply wsPairFree_cons_build ihF
        intro b _ hcon
        exact absurd hcon.1 (by simpa using ha)
      · rw [hval true]
        intro d hd
        cases hd
        simpa using ha

theorem collapseAux_map_pyToLower (l : List Char) :
    ∀ b, collapseAux b (l.map pyToLower) = (collapseAux b l).map pyToLower := by
  induction l with
  | nil => intro b; rfl
  | cons a t ih =>
    intro b
    by_cases ha : pyIsSpace a = true
    · have ha2 : pyIsSpace (pyToLower a) = true := by rw [pyIsSpace_pyToLower]; exact ha
      cases b with
      | true =>
        rw [List.map_cons, collapseAux, if_pos ha2, if_pos rfl,
          collapseAux, if_pos ha, if_pos rfl, ih]
      | false =>
        rw [List.map_cons, collapseAux, if_pos ha2, if_neg (by simp),
          collapseAux, if_pos ha, if_neg (by simp), ih, List.map_cons, pyToLower_space]
    · have ha2 : ¬ pyIsSpace (pyToLower a) = true := by rw [pyIsSpace_pyToLower]; exact ha
      rw [List.map_cons, collapseAux, if_neg ha2, collapseAux, if_neg ha, ih, List.map_cons]

theorem collapseWs_map_pyToLower (l : List Char) :
    collapseWs (l.map pyToLower) = (collapseWs l).map pyToLower :=
  collapseAux_map_pyToLower l false

theorem dropWhile_map_pyToLower (l : List Char) :
    (l.map pyToLower).dropWhile pyIsSpace = (l.dropWhile pyIsSpace).map pyToLower := by
  induction l with
  | nil => rfl
  | cons a t ih =>
    rw [List.map_cons, List.dropWhile_cons, List.dropWhile_cons, pyIsSpace_pyToLower]
    by_cases ha : pyIsSpace a = true
    · rw [if_pos ha, if_pos ha, ih]
    · rw [if_neg ha, if_neg ha, List.map_cons]

theorem pyStripList_map_pyToLower (l : List Char) :
    pyStripList (l.map pyToLower) = (pyStripList l).map pyToLower := by
  show ((((l.map pyToLower).dropWhile pyIsSpace).reverse).dropWhile pyIsSpace).reverse = _
  rw [dropWhile_map_pyToLower, ← List.map_reverse, dropWhile_map_pyToLower, ← List.map_reverse]
  rfl

/-- Claim C9: metric key normalization (whitespace collapsing, stripping,
lowercasing, exactly as `make_metric_id` composes them) is idempotent, and
normalizes the given example to `number of segments`. -/
theorem C9_make_metric_id_idempotent :
    (∀ s : String, make_metric_id (make_metric_id s) = make_metric_id s) ∧
    make_metric_id "  Number   of  Segments " = "number of segments" := by
  constructor
  · intro s
    show String.mk _ = String.mk _
    congr 1
    have hE : ∀ c ∈ collapseWs s.data, pyIsSpace c = true → c = ' ' :=
      collapseAux_elems s.data false
    have hP : wsPairFree (collapseWs s.data) = true :=
      (collapseAux_shape s.data).1
    -- invariants survive the strip
    have hsplit : collapseWs s.data
        = (collapseWs s.data).takeWhile pyIsSpace
          ++ (collapseWs s.data).dropWhile pyIsSpace :=
      (List.takeWhile_append_dropWhile _ _).symm
    have hP1 : wsPairFree ((collapseWs s.data).dropWhile pyIsSpace) = true := by
      apply wsPairFree_append_right ((collapseWs s.data).takeWhile pyIsSpace)
      rw [← hsplit]
      exact hP
    have hsplit2 : ((collapseWs s.data).dropWhile pyIsSpace).reverse
        = ((collapseWs s.data).dropWhile pyIsSpace).reverse.takeWhile pyIsSpace
          ++ ((collapseWs s.data).dropWhile pyIsSpace).reverse.dropWhile pyIsSpace :=
      (List.takeWhile_append_dropWhile _ _).symm
    have hdec : (collapseWs s.data).dropWhile pyIsSpace
        = pyStripList (collapseWs s.data)
          ++ (((collapseWs s.data).dropWhile pyIsSpace).reverse.takeWhile pyIsSpace).reverse := by
      have h2 := congrArg List.reverse hsplit2
      rw [List.reverse_append, List.reverse_reverse] at h2
      exact h2
    have hPS : wsPairFree (pyStripList (collapseWs s.data)) = true := by
      apply wsPairFree_append_left _
        ((((collapseWs s.data).dropWhile pyIsSpace).reverse.takeWhile pyIsSpace).reverse)
      rw [← hdec]
      exact hP1
    have hES : ∀ c ∈ pyStripList (collapseWs s.data), pyIsSpace c = true → c = ' ' := by
      intro c hc
      apply hE
      rw [hsplit]
      apply List.mem_append_right
      rw [hdec]
      exact List.mem_append_left _ hc
    -- now the composed normalization fixes the normalized list
    have hfix : collapseWs (pyStripList (collapseWs s.data))
        = pyStripList (collapseWs s.data) :=
      (collapseAux_fixed _ hES hPS).1
    calc List.map pyToLower
          (pyStripList (collapseWs (List.map pyToLower (pyStripList (collapseWs s.data)))))
        = List.map pyToLower
            (pyStripList (List.map pyToLower (collapseWs (pyStripList (collapseWs s.data))))) := by
          rw [collapseWs_map_pyToLower]
      _ = List.map pyToLower
            (List.map pyToLower (pyStripList (collapseWs (pyStripList (collapseWs s.data))))) := by
          rw [pyStripList_map_pyToLower]
      _ = List.map pyToLower (List.map pyToLower (pyStripList (pyStripList (collapseWs s.data)))) := by
          rw [hfix]
      _ = List.map pyToLower (List.map pyToLower (pyStripList (collapseWs s.data))) := by
          rw [pyStrip_idem]
      _ = List.map pyToLower (pyStripList (collapseWs s.data)) := by
          rw [List.map_map]
          apply List.map_congr_left
          intro a _
          exact pyToLower_idem a
  · rfl

/-! ## Soundness of the matcher: captured groups satisfy the shape of
their tokens -/

theorem firstSome_sound {f : α → Option β} :
    ∀ {l : List α} {b : β}, firstSome f l = some b → ∃ a ∈ l, f a = some b := by
  intro l
  induction l with
  | nil => intro b h; simp [firstSome] at h
  | cons a t ih =>
    intro b h
    cases hfa : f a with
    | some v =>
      have hv : firstSome f (a :: t) = some v := by rw [firstSome, hfa]
      rw [hv] at h
      cases h
      exact ⟨a, List.mem_cons_self _ _, hfa⟩
    | none =>
      have hstep : firstSome f (a :: t) = firstSome f t := by rw [firstSome, hfa]
      rw [hstep] at h
      obtain ⟨x, hx, hfx⟩ := ih h
      exact ⟨x, List.mem_cons_of_mem _ hx, hfx⟩

theorem takeWhile_length_le (p : α → Bool) (l : List α) :
    (l.takeWhile p).length ≤ l.length := by
  induction l with
  | nil => simp [List.takeWhile]
  | cons a t ih =>
    rw [List.takeWhile_cons]
    cases p a
    · simp
    · simpa using Nat.succ_le_succ ih

theorem mem_take_takeWhile_sat {cls : Char → Bool} {s : List Char} {n : ℕ}
    (hn : n ≤ (s.takeWhile cls).length) : ∀ c ∈ s.take n, cls c = true := by
  intro c hc
  have heq : s.take n = (s.takeWhile cls).take n := by
    conv_lhs => rw [← List.takeWhile_append_dropWhile cls s]
    rw [List.take_append_of_le_length hn]
  rw [heq] at hc
  exact List.mem_takeWhile_imp (List.take_subset _ _ hc)

theorem take_ne_nil_of_cands {cls : Char → Bool} {s : List Char} {n : ℕ}
    (h1 : 1 ≤ n) (h2 : n ≤ (s.takeWhile cls).length) : s.take n ≠ [] := by
  intro hcon
  have hlen := congrArg List.length hcon
  rw [List.length_take] at hlen
  have hsl : (s.takeWhile cls).length ≤ s.length := takeWhile_length_le _ _
  simp only [List.length_nil] at hlen
  omega

theorem mem_plusCands {cls : Char → Bool} {s : List Char} {n : ℕ}
    (h : n ∈ plusCands cls s) : 1 ≤ n ∧ n ≤ (s.takeWhile cls).length := by
  rw [plusCands, List.mem_reverse, List.mem_range'_1] at h
  omega

theorem mem_starCands {cls : Char → Bool} {s : List Char} {n : ℕ}
    (h : n ∈ starCands cls s) : n ≤ (s.takeWhile cls).length := by
  rw [starCands, List.mem_reverse, List.mem_range] at h
  omega

theorem matchToks_sound {ci anch : Bool} :
    ∀ {ts : List Tok} {s : List Char} {gs : List (List Char)},
      matchToks ci anch ts s = some gs →
      List.Forall₂ (fun p g => p g) (tokPreds ts) gs := by
  intro ts
  induction ts with
  | nil =>
    intro s gs h
    rw [matchToks] at h
    split_ifs at h
    cases h
    exact List.Forall₂.nil
  | cons t ts ih =>
    intro s gs h
    cases t with
    | lit l =>
      cases hml : matchLit ci l s with
      | none => rw [matchToks, hml] at h; cases h
      | some rest =>
        rw [matchToks, hml] at h
        exact ih h
    | altG ls =>
      rw [matchToks] at h
      obtain ⟨a, _, hfa⟩ := firstSome_sound h
      cases hml : matchLit ci a s with
      | none => rw [hml] at hfa; cases hfa
      | some rest =>
        rw [hml] at hfa
        obtain ⟨gs2, hm, hcons⟩ := Option.map_eq_some'.mp hfa
        subst hcons
        exact List.Forall₂.cons trivial (ih hm)
    | grpPlus cls =>
      rw [matchToks] at h
      obtain ⟨n, hn, hfn⟩ := firstSome_sound h
      obtain ⟨gs2, hm, hcons⟩ := Option.map_eq_some'.mp hfn
      subst hcons
      obtain ⟨hn1, hn2⟩ := mem_plusCands hn
      exact List.Forall₂.cons
        ⟨take_ne_nil_of_cands hn1 hn2, mem_take_takeWhile_sat hn2⟩ (ih hm)
    | grpStar cls =>
      rw [matchToks] at h
      obtain ⟨n, hn, hfn⟩ := firstSome_sound h
      obtain ⟨gs2, hm, hcons⟩ := Option.map_eq_some'.mp hfn
      subst hcons
      exact List.Forall₂.cons (mem_take_takeWhile_sat (mem_starCands hn)) (ih hm)
    | clsPlus cls =>
      rw [matchToks] at h
      obtain ⟨n, _, hfn⟩ := firstSome_sound h
      exact ih hfn
    | clsStar cls =>
      rw [matchToks] at h
      obtain ⟨n, _, hfn⟩ := firstSome_sound h
      exact ih hfn
    | cls1 cls =>
      cases s with
      | nil => rw [matchToks] at h; cases h
      | cons c cs =>
        rw [matchToks] at h
        split_ifs at h
        exact ih h
    | optCh c =>
      cases s with
      | nil =>
        rw [matchToks] at h
        exact ih h
      | cons c2 cs =>
        rw [matchToks] at h
        by_cases hce : chEq ci c c2 = true
        · rw [if_pos hce] at h
          cases hin : matchToks ci anch ts cs with
          | some gs2 => rw [hin] at h; cases h; exact ih hin
          | none => rw [hin] at h; exact ih h
        · rw [if_neg hce] at h
          exact ih h

theorem searchToks_sound {ci anch : Bool} {ts : List Tok} :
    ∀ {s : List Char} {gs : List (List Char)},
      searchToks ci anch ts s = some gs →
      List.Forall₂ (fun p g => p g) (tokPreds ts) gs := by
  intro s
  induction s with
  | nil => intro gs h; exact matchToks_sound h
  | cons c cs ih =>
    intro gs h
    cases hm : matchToks ci anch ts (c :: cs) with
    | some gs2 =>
      rw [searchToks, hm] at h
      cases h
      exact matchToks_sound hm
    | none =>
      rw [searchToks, hm] at h
      exact ih h

/-! ## Dictionary and string helper lemmas -/

theorem alookup_upsert_self [DecidableEq κ] (k : κ) (v : α) (l : List (κ × α)) :
    alookup k (upsertKV k v l) = some v := by
  induction l with
  | nil => simp [upsertKV, alookup]
  | cons p t ih =>
    by_cases hp : p.1 = k
    · simp [upsertKV, hp, alookup]
    · simp only [upsertKV, alookup]
      rw [if_neg hp, alookup, if_neg hp]
      exact ih

theorem alookup_upsert_ne [DecidableEq κ] {k k2 : κ} (h : k ≠ k2) (v : α)
    (l : List (κ × α)) : alookup k (upsertKV k2 v l) = alookup k l := by
  induction l with
  | nil =>
    show alookup k [(k2, v)] = alookup k []
    simp only [alookup, if_neg (show ¬ k2 = k from fun he => h he.symm)]
  | cons p t ih =>
    by_cases hp : p.1 = k2
    · simp only [upsertKV]
      rw [if_pos hp, alookup, alookup, if_neg (by rw [hp]; exact fun he => h he.symm),
        if_neg (by rw [hp]; exact fun he => h he.symm)]
    · simp only [upsertKV]
      rw [if_neg hp, alookup, alookup]
      by_cases hk : p.1 = k
      · rw [if_pos hk, if_pos hk]
      · rw [if_neg hk, if_neg hk]
        exact ih

theorem alookup_append_of_none [DecidableEq κ] {k : κ} {A B : List (κ × α)}
    (h : alookup k A = none) : alookup k (A ++ B) = alookup k B := by
  induction A with
  | nil => simp
  | cons p t ih =>
    rw [alookup] at h
    by_cases hp : p.1 = k
    · rw [if_pos hp] at h; cases h
    · rw [if_neg hp] at h
      rw [List.cons_append, alookup, if_neg hp]
      exact ih h

theorem alookup_append_of_some [DecidableEq κ] {k : κ} {v : α} {A B : List (κ × α)}
    (h : alookup k A = some v) : alookup k (A ++ B) = some v := by
  induction A with
  | nil => simp [alookup] at h
  | cons p t ih =>
    rw [alookup] at h
    by_cases hp : p.1 = k
    · rw [if_pos hp] at h
      rw [List.cons_append, alookup, if_pos hp]
      exact h
    · rw [if_neg hp] at h
      rw [List.cons_append, alookup, if_neg hp]
      exact ih h

theorem alookup_eq_none_of_hasKey_false [DecidableEq κ] {k : κ} {l : List (κ × α)}
    (h : hasKey k l = false) : alookup k l = none := by
  rw [hasKey] at h
  cases hx : alookup k l
  · rfl
  · rw [hx] at h; cases h

theorem string_append_data (a b : String) : (a ++ b).data = a.data ++ b.data := rfl

theorem string_ne_append_V2 (s : String) : s ≠ s ++ V2 := by
  intro h
  have hlen := congrArg (fun t : String => t.data.length) h
  simp only [string_append_data, List.length_append] at hlen
  have : V2.data.length = 14 := by decide
  omega

/-! ## Characterization of the anchored file name pattern -/

theorem matchLit_false_append (l r : List Char) : matchLit false l (l ++ r) = some r := by
  induction l with
  | nil => rfl
  | cons c cs ih =>
    rw [List.cons_append, matchLit, if_pos]
    · exact ih
    · simp [chEq]

theorem matchLit_false_some : ∀ (l t r : List Char),
    matchLit false l t = some r → t = l ++ r
  | [], t, r, h => by cases h; rfl
  | c :: cs, [], r, h => by cases h
  | c :: cs, d :: ds, r, h => by
    rw [matchLit] at h
    split_ifs at h with hcd
    have hd : c = d := by simpa [chEq] using hcd
    subst hd
    rw [List.cons_append, matchLit_false_some cs ds r h]

theorem firstSome_of_unique {f : α → Option β} {l : List α} {a : α} {b : β}
    (ha : a ∈ l) (hb : f a = some b)
    (huniq : ∀ x ∈ l, x ≠ a → f x = none) : firstSome f l = some b := by
  induction l with
  | nil => cases ha
  | cons y t ih =>
    by_cases hya : y = a
    · subst hya
      rw [firstSome, hb]
    · rw [firstSome, huniq y (List.mem_cons_self _ _) hya]
      rcases List.mem_cons.mp ha with rfl | hat
      · exact absurd rfl hya
      · exact ih hat (fun x hx hxa => huniq x (List.mem_cons_of_mem _ hx) hxa)

theorem matchToks_single_lit_end (L t : List Char) (gs : List (List Char)) :
    matchToks false true [Tok.lit L] t = some gs ↔ (t = L ∧ gs = []) := by
  constructor
  · intro h
    cases hml : matchLit false L t with
    | none => rw [matchToks, hml] at h; cases h
    | some rest =>
      simp only [matchToks, hml] at h
      split_ifs at h with hc
      cases h
      have hrest : rest = [] := by
        by_contra hne
        exact hc ⟨by simp, hne⟩
      subst hrest
      have := matchLit_false_some L t [] hml
      simp only [List.append_nil] at this
      exact ⟨this, rfl⟩
  · rintro ⟨rfl, rfl⟩
    have h1 : matchLit false t t = some [] := by
      have h2 := matchLit_false_append t []
      simpa using h2
    simp [matchToks, h1]

theorem takeWhile_append_all {cls : α → Bool} {A : List α} (B : List α)
    (h : ∀ a ∈ A, cls a = true) :
    (A ++ B).takeWhile cls = A ++ B.takeWhile cls := by
  induction A with
  | nil => rfl
  | cons a t ih =>
    rw [List.cons_append, List.takeWhile_cons, if_pos (h a (List.mem_cons_self _ _)),
      List.cons_append, ih (fun x hx => h x (List.mem_cons_of_mem _ hx))]

theorem cnvFileMatch_chars (p : String) :
    cnvFileMatch (p ++ ".cnv_metrics.csv") = some p ↔
      (p.data ≠ [] ∧ ∀ c ∈ p.data, c ≠ '.') := by
  obtain ⟨pl⟩ := p
  have hdata : ((String.mk pl ++ ".cnv_metrics.csv").data)
      = pl ++ ".cnv_metrics.csv".data := rfl
  constructor
  · intro h
    rw [cnvFileMatch] at h
    cases hm : matchToks false true FILE_RGX (String.mk pl ++ ".cnv_metrics.csv").data with
    | none => rw [hm] at h; cases h
    | some gs =>
      rw [hm] at h
      rw [FILE_RGX, matchToks] at hm
      obtain ⟨n, hn, hfn⟩ := firstSome_sound hm
      obtain ⟨gs2, hinner, hcons⟩ := Option.map_eq_some'.mp hfn
      obtain ⟨hdrop, hgs2⟩ := (matchToks_single_lit_end _ _ _).mp hinner
      subst hgs2
      subst hcons
      -- h identifies the captured group with pl
      have hg : ((String.mk pl ++ ".cnv_metrics.csv").data).take n = pl := by
        have h2 : String.mk (((String.mk pl ++ ".cnv_metrics.csv").data).take n)
            = String.mk pl := Option.some.inj h
        injection h2
      obtain ⟨hn1, hn2⟩ := mem_plusCands hn
      -- the drop equation forces n = pl.length
      have hlen := congrArg List.length hdrop
      rw [List.length_drop, hdata, List.length_append] at hlen
      have hsuf : (".cnv_metrics.csv".data).length = 16 := by decide
      rw [hsuf] at hlen
      have hnp : n = pl.length := by omega
      subst hnp
      constructor
      · intro hnil
        have hpl : pl = [] := hnil
        rw [hpl] at hn1
        simp at hn1
      · intro c hc
        have hsat := mem_take_takeWhile_sat hn2 c (by rw [hg]; exact hc)
        simpa [notDot] using hsat
  · rintro ⟨hne, hdot⟩
    have hcls : ∀ c ∈ pl, notDot c = true := by
      intro c hc
      simp [notDot, hdot c hc]
    have hrun : ((String.mk pl ++ ".cnv_metrics.csv").data).takeWhile notDot = pl := by
      rw [hdata, takeWhile_append_all _ hcls]
      have : (".cnv_metrics.csv".data).takeWhile notDot = [] := by decide
      rw [this, List.append_nil]
    have hdropn : ((String.mk pl ++ ".cnv_metrics.csv").data).drop pl.length
        = ".cnv_metrics.csv".data := by
      rw [hdata]
      exact List.drop_left _ _
    have htaken : ((String.mk pl ++ ".cnv_metrics.csv").data).take pl.length = pl := by
      rw [hdata]
      exact List.take_left _ _
    have hmem : pl.length ∈ plusCands notDot ((String.mk pl ++ ".cnv_metrics.csv").data) := by
      rw [plusCands, List.mem_reverse, List.mem_range'_1, hrun]
      have : 1 ≤ pl.length := by
        cases pl with
        | nil => exact absurd rfl hne
        | cons a t => simp
      omega
    have hfpl : (matchToks false true [Tok.lit ".cnv_metrics.csv".data]
          (((String.mk pl ++ ".cnv_metrics.csv").data).drop pl.length)).map
          (fun gs => ((String.mk pl ++ ".cnv_metrics.csv").data).take pl.length :: gs)
        = some [pl] := by
      rw [hdropn, (matchToks_single_lit_end _ _ []).mpr ⟨rfl, rfl⟩]
      rw [Option.map_some', htaken]
    have huniq : ∀ m ∈ plusCands notDot ((String.mk pl ++ ".cnv_metrics.csv").data),
        m ≠ pl.length →
        (matchToks false true [Tok.lit ".cnv_metrics.csv".data]
            (((String.mk pl ++ ".cnv_metrics.csv").data).drop m)).map
          (fun gs => ((String.mk pl ++ ".cnv_metrics.csv").data).take m :: gs) = none := by
      intro m _ hm
      cases hin : matchToks false true [Tok.lit ".cnv_metrics.csv".data]
          (((String.mk pl ++ ".cnv_metrics.csv").data).drop m) with
      | none => rw [Option.map_none']
      | some gs2 =>
        obtain ⟨hdropm, _⟩ := (matchToks_single_lit_end _ _ _).mp hin
        exfalso
        apply hm
        have hlen := congrArg List.length hdropm
        rw [List.length_drop, hdata, List.length_append] at hlen
        have hsuf : (".cnv_metrics.csv".data).length = 16 := by decide
        rw [hsuf] at hlen
        omega
    have hfs : matchToks false true FILE_RGX (String.mk pl ++ ".cnv_metrics.csv").data
        = some [pl] := by
      rw [FILE_RGX, matchToks]
      exact firstSome_of_unique hmem hfpl huniq
    rw [cnvFileMatch, hfs]

/-! ## The claims -/

/-- Claim C10: the CNV module accepts a file name exactly when the part
before `.cnv_metrics.csv` is nonempty and contains no dot; in particular a
name whose sample part itself contains a dot, such as
`a.b.cnv_metrics.csv`, is rejected. -/
theorem C10_file_name_dot_free (p : String) :
    (cnvFileMatch (p ++ ".cnv_metrics.csv") = some p ↔
      (p.data ≠ [] ∧ ∀ c ∈ p.data, c ≠ '.')) ∧
    cnvFileMatch "a.b.cnv_metrics.csv" = none :=
  ⟨cnvFileMatch_chars p, by decide⟩

/-- Witness for C10 at the concrete sample name `SAMPLE_A`. -/
theorem C10_file_name_dot_free_witness :
    cnvFileMatch ("SAMPLE_A" ++ ".cnv_metrics.csv") = some "SAMPLE_A" :=
  (C10_file_name_dot_free "SAMPLE_A").1.mpr ⟨by decide, by decide⟩

/-- Claim C8 (amended): every field captured by the CNV line pattern is
comma free; in the coverage line pattern the metric and first value are
comma free, but the second value is the unrestricted remainder `(.*)` and
may contain commas. -/
theorem C8_no_commas_in_fields :
    (∀ (line sec m v1 v2 : String),
        cnvLineMatch line = some (sec, m, v1, v2) →
        ',' ∉ m.data ∧ ',' ∉ v1.data ∧ ',' ∉ v2.data) ∧
    (∀ (line m v1 v2 : String),
        covLineMatch line = some (m, v1, v2) →
        ',' ∉ m.data ∧ ',' ∉ v1.data) := by
  constructor
  · intro line sec m v1 v2 h
    rw [cnvLineMatch] at h
    cases hmatch : matchToks false true LINE_RGX line.data with
    | none => rw [hmatch] at h; cases h
    | some gs =>
      rw [hmatch] at h
      have hs := matchToks_sound hmatch
      simp only [LINE_RGX, tokPreds] at hs
      rcases hs with _ | ⟨hp1, hs⟩
      rcases hs with _ | ⟨hp2, hs⟩
      rcases hs with _ | ⟨hp3, hs⟩
      rcases hs with _ | ⟨hp4, hs⟩
      cases hs
      have h4 := Option.some.inj h
      injection h4 with e1 h4
      injection h4 with e2 h4
      injection h4 with e3 e4
      refine ⟨?_, ?_, ?_⟩
      · intro hmem
        rw [← e2] at hmem
        have := hp2.2 ',' hmem
        simp [notComma] at this
      · intro hmem
        rw [← e3] at hmem
        have := hp3.2 ',' hmem
        simp [notComma] at this
      · intro hmem
        rw [← e4] at hmem
        have := hp4 ',' hmem
        simp [notComma] at this
  · intro line m v1 v2 h
    rw [covLineMatch] at h
    cases hmatch : searchToks true false COV_LINE_RGX line.data with
    | none => rw [hmatch] at h; cases h
    | some gs =>
      rw [hmatch] at h
      have hs := searchToks_sound hmatch
      simp only [COV_LINE_RGX, tokPreds] at hs
      rcases hs with _ | ⟨hp1, hs⟩
      rcases hs with _ | ⟨hp2, hs⟩
      rcases hs with _ | ⟨hp3, hs⟩
      cases hs
      have h3 := Option.some.inj h
      injection h3 with e1 h3
      injection h3 with e2 e3
      constructor
      · intro hmem
        rw [← e1] at hmem
        have := hp1.2 ',' hmem
        simp [notComma] at this
      · intro hmem
        rw [← e2] at hmem
        have := hp2.2 ',' hmem
        simp [notComma] at this

/-- Witness for C8 on a concrete CNV line. -/
theorem C8_no_commas_in_fields_witness :
    ¬ (',' ∈ "Number of Segments".data) :=
  (C8_no_commas_in_fields.1 "CNV SUMMARY,,Number of Segments,17"
    "CNV SUMMARY" "Number of Segments" "17" "" rfl).1

/-- Counterexample for C8 as stated: the coverage pattern captures a second
value containing a comma. -/
theorem C8_no_commas_counterexample :
    covLineMatch "COVERAGE SUMMARY,,m,1,2,3" = some ("m", "1", "2,3") ∧
    ',' ∈ "2,3".data :=
  ⟨rfl, by decide⟩

/-- Claim C1: the CNV parser rejects an invalid file name with a
diagnostic, contributes no data and the loop continues; but the coverage
parser returns the four element tuple `(0, 0, 0, 0)` that the three name
unpacking of the aggregation loop cannot consume, so a `ValueError`
escapes. -/
theorem C1_invalid_file_name_behaviour :
    unpack3 (parse_coverage_metrics badNameCovFile {}).ret = Except.error "ValueError" ∧
    (cnvMetricsParse badNameCnvFile {}).1 = CnvOut.fail ∧
    (cnvMetricsParse badNameCnvFile {}).2.log.invalid_file_names
      = [("run1", "bad.csv")] ∧
    (add_cnv_metrics rawClean [badNameCnvFile]).cnv_data = [] :=
  ⟨rfl, rfl, rfl, rfl⟩

/-- Claim C4: the CNV parser adds two record entries for a two valued line
(base key and `V2` key) and one for a one valued line, but the coverage
parser drops a second value that coerces to zero (file `covFileZeroV2`,
second value `0`, only one entry results although the field is
nonempty). -/
theorem C4_second_value_entries :
    covLineMatch "COVERAGE SUMMARY,,Aligned bases in wgs,100,0"
      = some ("Aligned bases in wgs", "100", "0") ∧
    (parse_coverage_metrics covFileZeroV2 {}).ret
      = [CovVal.s "S", CovVal.s "wgs",
         CovVal.dict [("Aligned bases in region.", MetricValue.int 100)]] ∧
    (cnvMetricsParse cnvTwoValFile {}).1
      = CnvOut.parsed true "S"
          [("number of passing deletions", MetricValue.int 5),
           ("number of passing deletions" ++ V2,
             MetricValue.float (PyFloat.finite 222 (-1)))] := by
  refine ⟨rfl, by decide, by decide⟩

/-- Claim C5: in the coverage parser the second value of a two valued
metric is stored under the empty string key (the percentage name is reset
before the data write), and no header table contains that key, violating
the one header per record key invariant. -/
theorem C5_record_key_without_header :
    (parse_coverage_metrics covFileHalfV2 {}).ret
      = [CovVal.s "S", CovVal.s "wgs",
         CovVal.dict [("Aligned bases in region.", MetricValue.int 100),
                      ("", MetricValue.float (PyFloat.finite 125 (-1)))]] ∧
    (parse_coverage_metrics covFileHalfV2 {}).hs.th_sample
      = ["Aligned bases in region.", "Percentage of aligned bases in region."] ∧
    (parse_coverage_metrics covFileHalfV2 {}).hs.th_pheno
      = ["wgs Aligned bases in region."] ∧
    "" ∉ (parse_coverage_metrics covFileHalfV2 {}).hs.th_sample ∧
    "" ∉ (parse_coverage_metrics covFileHalfV2 {}).hs.th_pheno := by
  refine ⟨by decide, by decide, by decide, by decide, by decide⟩

/-- Claim C6 (amended): the first value is coerced integer first then
float; the second value is coerced float first then integer; when both
conversions fail the original string is kept and an unusual value
diagnostic is recorded. -/
theorem C6_coercion_order (root fn metric logKey v : String) (log : CnvLog) :
    (∀ z : ℤ, pyInt v = some z →
        cnvCoerceV1 root fn metric v log = (MetricValue.int z, log)) ∧
    (∀ f : PyFloat, pyInt v = none → pyFloat v = some f →
        cnvCoerceV1 root fn metric v log = (MetricValue.float f, log)) ∧
    (∀ f : PyFloat, pyFloat v = some f →
        cnvCoerceV2 root fn logKey v log = (MetricValue.float f, log)) ∧
    (pyInt v = none → pyFloat v = none →
        cnvCoerceV1 root fn metric v log
          = (MetricValue.str v,
             { log with unusual_values := upsertKV (root, fn, metric) v log.unusual_values }) ∧
        cnvCoerceV2 root fn logKey v log
          = (MetricValue.str v,
             { log with unusual_values := upsertKV (root, fn, logKey) v log.unusual_values })) := by
  refine ⟨?_, ?_, ?_, ?_⟩
  · intro z h
    simp only [cnvCoerceV1, h]
  · intro f h1 h2
    simp only [cnvCoerceV1, h1, h2]
  · intro f h
    simp only [cnvCoerceV2, h]
  · intro h1 h2
    constructor
    · simp only [cnvCoerceV1, h1, h2]
    · simp only [cnvCoerceV2, h1, h2]

/-- Witness for C6 at `42`, `3.14` and `NA`. -/
theorem C6_coercion_order_witness :
    cnvCoerceV1 "r" "f" "m" "42" ({} : CnvLog) = (MetricValue.int 42, {}) ∧
    cnvCoerceV2 "r" "f" "k" "3.14" ({} : CnvLog)
      = (MetricValue.float (PyFloat.finite 314 (-2)), {}) ∧
    cnvCoerceV1 "r" "f" "m" "NA" ({} : CnvLog)
      = (MetricValue.str "NA",
         { invalid_file_names := [], invalid_file_lines := [],
           unusual_values := [(("r", "f", "m"), "NA")] }) :=
  ⟨(C6_coercion_order "r" "f" "m" "k" "42" {}).1 42 (by decide),
   (C6_coercion_order "r" "f" "m" "k" "3.14" {}).2.2.1 (PyFloat.finite 314 (-2)) (by decide),
   ((C6_coercion_order "r" "f" "m" "k" "NA" {}).2.2.2 (by decide) (by decide)).1⟩

/-- Counterexample for C6 as stated: the exact integer literal `42` in the
second value position is coerced to a float, not to the integer `42`. -/
theorem C6_coercion_order_counterexample :
    cnvCoerceV2 "run1" "S.cnv_metrics.csv" ("m" ++ V2) "42" {}
      = (MetricValue.float (PyFloat.finite 42 0), {}) ∧
    MetricValue.float (PyFloat.finite 42 0) ≠ MetricValue.int 42 :=
  ⟨by decide, by decide⟩

/-- One successful iteration of the file loop, written out. -/
theorem cnvLoopStep_parsed (clean : String → CnvFile → String) (b : CnvBatch)
    (f : CnvFile) (s : String) (d : List (String × MetricValue)) (st2 : CnvSt)
    (hp : cnvMetricsParse f b.st = (CnvOut.parsed true s d, st2)) :
    cnvLoopStep clean b f =
      { cnv_data := upsertKV (clean s f) d b.cnv_data,
        all_samples := appendAt (clean s f) f b.all_samples,
        st := st2 } := by
  simp only [cnvLoopStep, hp, if_true]

/-- Claim C2 (amended): when two successfully parsed files map to the same
cleaned sample name, the second file is not rejected: its record replaces
the record of the first in `cnv_data`, and both files are appended under
that name in `all_samples`, the structure the post loop duplicate report
reads. -/
theorem C2_duplicate_overwrites (clean : String → CnvFile → String)
    (f1 f2 : CnvFile) (s1 s2 c : String)
    (d1 d2 : List (String × MetricValue)) (st1 st2 : CnvSt)
    (h1 : cnvMetricsParse f1 ({} : CnvSt) = (CnvOut.parsed true s1 d1, st1))
    (h2 : cnvMetricsParse f2 st1 = (CnvOut.parsed true s2 d2, st2))
    (hc1 : clean s1 f1 = c) (hc2 : clean s2 f2 = c) :
    alookup c (add_cnv_metrics clean [f1, f2]).cnv_data = some d2 ∧
    alookup c (add_cnv_metrics clean [f1, f2]).all_samples = some [f1, f2] := by
  have hb1 : cnvLoopStep clean ({} : CnvBatch) f1
      = { cnv_data := upsertKV c d1 [], all_samples := appendAt c f1 [], st := st1 } := by
    have hs := cnvLoopStep_parsed clean {} f1 s1 d1 st1 (by exact h1)
    rw [hc1] at hs
    exact hs
  have hb2 : cnvLoopStep clean
        { cnv_data := upsertKV c d1 [], all_samples := appendAt c f1 [], st := st1 } f2
      = { cnv_data := upsertKV c d2 (upsertKV c d1 []),
          all_samples := appendAt c f2 (appendAt c f1 []), st := st2 } := by
    have hs := cnvLoopStep_parsed clean
      { cnv_data := upsertKV c d1 [], all_samples := appendAt c f1 [], st := st1 }
      f2 s2 d2 st2 (by exact h2)
    rw [hc2] at hs
    exact hs
  have hfold : add_cnv_metrics clean [f1, f2]
      = cnvLoopStep clean (cnvLoopStep clean {} f1) f2 := rfl
  rw [hfold, hb1, hb2]
  constructor
  · exact alookup_upsert_self c d2 _
  · show alookup c (appendAt c f2 (appendAt c f1 [])) = some [f1, f2]
    simp [appendAt, alookup]

/-- Witness for C2 on two files both named `SAMPLE_A.cnv_metrics.csv`. -/
theorem C2_duplicate_overwrites_witness :
    alookup "SAMPLE_A" (add_cnv_metrics rawClean [fileDupA1, fileDupA2]).cnv_data
      = some [("number of segments", MetricValue.int 99)] ∧
    alookup "SAMPLE_A" (add_cnv_metrics rawClean [fileDupA1, fileDupA2]).all_samples
      = some [fileDupA1, fileDupA2] :=
  C2_duplicate_overwrites rawClean fileDupA1 fileDupA2 "SAMPLE_A" "SAMPLE_A" "SAMPLE_A"
    [("number of segments", MetricValue.int 17)]
    [("number of segments", MetricValue.int 99)]
    (cnvMetricsParse fileDupA1 {}).2
    (cnvMetricsParse fileDupA2 (cnvMetricsParse fileDupA1 {}).2).2
    (by rfl) (by rfl) rfl rfl

/-- Counterexample for C2 as stated: after both files are processed, the
record of the first file (segments 17) is gone, replaced by the record of
the second (segments 99). -/
theorem C2_duplicate_overwrites_counterexample :
    alookup "SAMPLE_A" (add_cnv_metrics rawClean [fileDupA1, fileDupA2]).cnv_data
      = some [("number of segments", MetricValue.int 99)] ∧
    (cnvMetricsParse fileDupA1 {}).1
      = CnvOut.parsed true "SAMPLE_A" [("number of segments", MetricValue.int 17)] ∧
    some [("number of segments", MetricValue.int 99)]
      ≠ some [("number of segments", MetricValue.int 17)] :=
  ⟨rfl, rfl, by decide⟩

/-- Claim C3 (amended): when cleaning collapses two distinct raw sample
names, the batch ends with a single entry keyed by the cleaned name holding
the later record; the original raw names key nothing, and the collision is
visible only through `all_samples`. -/
theorem C3_clean_collision_single_entry (clean : String → CnvFile → String)
    (f1 f2 : CnvFile) (s1 s2 c : String)
    (d1 d2 : List (String × MetricValue)) (st1 st2 : CnvSt)
    (h1 : cnvMetricsParse f1 ({} : CnvSt) = (CnvOut.parsed true s1 d1, st1))
    (h2 : cnvMetricsParse f2 st1 = (CnvOut.parsed true s2 d2, st2))
    (hc1 : clean s1 f1 = c) (hc2 : clean s2 f2 = c) :
    (add_cnv_metrics clean [f1, f2]).cnv_data = [(c, d2)] ∧
    (add_cnv_metrics clean [f1, f2]).all_samples = [(c, [f1, f2])] ∧
    ∀ k, k ≠ c → alookup k (add_cnv_metrics clean [f1, f2]).cnv_data = none := by
  have hb1 : cnvLoopStep clean ({} : CnvBatch) f1
      = { cnv_data := upsertKV c d1 [], all_samples := appendAt c f1 [], st := st1 } := by
    have hs := cnvLoopStep_parsed clean {} f1 s1 d1 st1 (by exact h1)
    rw [hc1] at hs
    exact hs
  have hb2 : cnvLoopStep clean
        { cnv_data := upsertKV c d1 [], all_samples := appendAt c f1 [], st := st1 } f2
      = { cnv_data := upsertKV c d2 (upsertKV c d1 []),
          all_samples := appendAt c f2 (appendAt c f1 []), st := st2 } := by
    have hs := cnvLoopStep_parsed clean
      { cnv_data := upsertKV c d1 [], all_samples := appendAt c f1 [], st := st1 }
      f2 s2 d2 st2 (by exact h2)
    rw [hc2] at hs
    exact hs
  have hfold : add_cnv_metrics clean [f1, f2]
      = cnvLoopStep clean (cnvLoopStep clean {} f1) f2 := rfl
  rw [hfold, hb1, hb2]
  refine ⟨?_, ?_, ?_⟩
  · show upsertKV c d2 (upsertKV c d1 []) = [(c, d2)]
    simp [upsertKV]
  · show appendAt c f2 (appendAt c f1 []) = [(c, [f1, f2])]
    simp [appendAt]
  · intro k hk
    show alookup k (upsertKV c d2 (upsertKV c d1 [])) = none
    have hone : upsertKV c d2 (upsertKV c d1 []) = [(c, d2)] := by simp [upsertKV]
    rw [hone, alookup, if_neg (fun he => hk he.symm)]
    rfl

/-- Witness for C3 with the cleaning stub collapsing `Sample-1` and
`Sample_1` to `Sample1`. -/
theorem C3_clean_collision_single_entry_witness :
    (add_cnv_metrics stubClean [fileClash1, fileClash2]).cnv_data
      = [("Sample1", [("number of segments", MetricValue.int 99)])] ∧
    (add_cnv_metrics stubClean [fileClash1, fileClash2]).all_samples
      = [("Sample1", [fileClash1, fileClash2])] ∧
    alookup "Sample-1" (add_cnv_metrics stubClean [fileClash1, fileClash2]).cnv_data
      = none := by
  have h := C3_clean_collision_single_entry stubClean fileClash1 fileClash2
    "Sample-1" "Sample_1" "Sample1"
    [("number of segments", MetricValue.int 17)]
    [("number of segments", MetricValue.int 99)]
    (cnvMetricsParse fileClash1 {}).2
    (cnvMetricsParse fileClash2 (cnvMetricsParse fileClash1 {}).2).2
    (by rfl) (by rfl) rfl rfl
  exact ⟨h.1, h.2.1, h.2.2 "Sample-1" (by decide)⟩

/-- Counterexample for C3 as stated: the final table holds one entry keyed
by the cleaned identifier; neither original raw identifier keys an
entry. -/
theorem C3_clean_collision_counterexample :
    (add_cnv_metrics stubClean [fileClash1, fileClash2]).cnv_data.length = 1 ∧
    alookup "Sample-1" (add_cnv_metrics stubClean [fileClash1, fileClash2]).cnv_data
      = none ∧
    alookup "Sample_1" (add_cnv_metrics stubClean [fileClash1, fileClash2]).cnv_data
      = none :=
  ⟨rfl, rfl, rfl⟩

/-- The header pair insertion of the panel branch keeps the freshly built
first config under the panel key when the key is new. -/
theorem alookup_panel_headers (mid : String) (c1 c2 : HeaderConfig)
    (headers : List (String × HeaderConfig)) (hk : hasKey mid headers = false) :
    alookup mid
      (if hasKey (mid ++ V2)
            (if hasKey mid headers = true then headers else headers ++ [(mid, c1)]) = true
       then (if hasKey mid headers = true then headers else headers ++ [(mid, c1)])
       else (if hasKey mid headers = true then headers
             else headers ++ [(mid, c1)]) ++ [(mid ++ V2, c2)])
      = some c1 := by
  have hbase : alookup mid
      (if hasKey mid headers = true then headers else headers ++ [(mid, c1)]) = some c1 := by
    rw [if_neg (by simp [hk]), alookup_append_of_none (alookup_eq_none_of_hasKey_false hk),
      alookup, if_pos rfl]
  by_cases hk2 : hasKey (mid ++ V2)
      (if hasKey mid headers = true then headers else headers ++ [(mid, c1)]) = true
  · rw [if_pos hk2]; exact hbase
  · rw [if_neg hk2]; exact alookup_append_of_some hbase

/-- Claim C7 (amended): the sex genotyper branch never tests the value for
X or Y; the first matching row of a file is treated as the case sample
under the fixed key, every later row becomes a panel sample key whose
freshly created header pair carries ordering priorities `counter` and
`counter + 1`, the counter advancing by two per panel row from the
reserved offset `RESERVED_START = 100`. -/
theorem C7_sex_rows_positional (root fn line metric v1 v2 : String) (st : CnvLineSt)
    (hm : cnvLineMatch line = some ("SEX GENOTYPER", metric, v1, v2)) :
    (st.caseNotCaught = true →
        alookup "Karyotype case sample" (cnvProcessLine root fn st line).data
          = some (MetricValue.str v1)) ∧
    (st.caseNotCaught = false →
        alookup ("Karyotype panel sample " ++ metric) (cnvProcessLine root fn st line).data
          = some (MetricValue.str v1) ∧
        (cnvProcessLine root fn st line).base.counter = st.base.counter + 2 ∧
        (hasKey ("Karyotype panel sample " ++ metric) st.base.headers = false →
          ∃ hc, alookup ("Karyotype panel sample " ++ metric)
              (cnvProcessLine root fn st line).base.headers = some hc ∧
            hc.order_priority = some (st.base.counter : ℚ))) ∧
    (({} : CnvSt).counter = RESERVED_START ∧ RESERVED_START = 100) := by
  have hsec : ¬ ("SEX GENOTYPER" = "CNV SUMMARY") := by decide
  refine ⟨?_, ?_, rfl, rfl⟩
  · intro hcase
    simp only [cnvProcessLine, hm, if_neg hsec, hcase, if_true]
    by_cases hv2 : v2 = ""
    · rw [if_neg (by simp [hv2])]
      exact alookup_upsert_self _ _ _
    · rw [if_pos hv2]
      rw [alookup_upsert_ne (string_ne_append_V2 _), alookup_upsert_self]
  · intro hcase
    simp only [cnvProcessLine, hm, if_neg hsec, hcase, Bool.false_eq_true, if_false]
    refine ⟨?_, ?_, ?_⟩
    · by_cases hv2 : v2 = ""
      · rw [if_neg (by simp [hv2])]
        exact alookup_upsert_self _ _ _
      · rw [if_pos hv2]
        rw [alookup_upsert_ne (string_ne_append_V2 _), alookup_upsert_self]
    · by_cases hv2 : v2 = ""
      · rw [if_neg (by simp [hv2])]
        simp [make_panel_headers]
      · rw [if_pos hv2]
        simp [make_panel_headers]
    · intro hk
      by_cases hv2 : v2 = ""
      · rw [if_neg (by simp [hv2])]
        refine ⟨(make_panel_headers metric st.base.counter).1, ?_,
          by simp [make_panel_headers]⟩
        exact alookup_panel_headers _ _ _ _ hk
      · rw [if_pos hv2]
        refine ⟨(make_panel_headers metric st.base.counter).1, ?_,
          by simp [make_panel_headers]⟩
        exact alookup_panel_headers _ _ _ _ hk

/-- Witness for C7 on a concrete panel row processed after the case sample
was caught. -/
theorem C7_sex_rows_positional_witness :
    alookup ("Karyotype panel sample " ++ "PANEL_A")
        (cnvProcessLine "run1" "S1.cnv_metrics.csv" panelStateEx
          "SEX GENOTYPER,,PANEL_A,XX,0.9").data
      = some (MetricValue.str "XX") ∧
    (cnvProcessLine "run1" "S1.cnv_metrics.csv" panelStateEx
        "SEX GENOTYPER,,PANEL_A,XX,0.9").base.counter
      = panelStateEx.base.counter + 2 := by
  have h := C7_sex_rows_positional "run1" "S1.cnv_metrics.csv"
    "SEX GENOTYPER,,PANEL_A,XX,0.9" "PANEL_A" "XX" "0.9" panelStateEx rfl
  have h2 := h.2.1 rfl
  exact ⟨h2.1, h2.2.1⟩

/-- Counterexample for C7 as stated: a first sex genotyper row whose value
`ZZ` contains neither X nor Y is still stored under the fixed karyotype
key, not under the sample like string of the line, so no X or Y test
gates that treatment. -/
theorem C7_sex_rows_positional_counterexample :
    (cnvMetricsParse sexNoXYFile {}).1
      = CnvOut.parsed true "S1"
          [("Karyotype case sample", MetricValue.str "ZZ"),
           ("Karyotype case sample" ++ V2, MetricValue.float (PyFloat.finite 5 (-1)))] ∧
    ("ZZ".data.all fun c => !(c = 'X' ∨ c = 'x' ∨ c = 'Y' ∨ c = 'y')) = true := by
  exact ⟨by decide, by decide⟩

end DragenSpec
